import Mathlib

/-!
Verification of the attendance reconciliation core of the llw32-vice-chair
application, against its natural-language specification.

The development shallowly embeds two source units:

* the batch persistence gateway (the `POST` route handler: meetingId
  validation, tier selection among a direct transactional connection, a
  privileged service client and a caller-scoped session client, and the
  per-tier delete/upsert logic), and
* the client-side reconciliation core of the attendance page (the diff
  loops of `saveAttendance`, the reconciliation merge, `loadAttendance`
  plus the roster back-fill effect, and the autosave scheduling effect).

Identifiers (uuids in the source) are modelled as natural numbers; the
`gen_random_uuid()` call of the tier-1 SQL is modelled by an explicit
fresh-id supply counter that the gateway threads through, reflecting that
each call yields a value distinct from previously generated ones.
-/

namespace Attendance

/-- The database status enum of an attendance row (`Attendance["status"]`). -/
inductive AStatus where
  | present
  | apology
  | absent
deriving DecidableEq, Repr

/-- One row of the `attendance` table. -/
structure DbRow where
  id : Nat
  meeting_id : Nat
  member_id : Option Nat
  guest_id : Option Nat
  pipeliner_id : Option Nat
  status : AStatus
deriving DecidableEq, Repr

/-- One entry of `AttendancePayload.upserts` (`AttendanceUpsertInput` on the
client): `id == none` signals "create". -/
structure UpsertIn where
  id : Option Nat
  meeting_id : Nat
  member_id : Option Nat
  guest_id : Option Nat
  pipeliner_id : Option Nat
  status : AStatus
deriving DecidableEq, Repr

/-- The row shape selected back by both tiers:
`id, member_id, guest_id, pipeliner_id, status` (the source's `UpsertRow`). -/
structure ResultRow where
  id : Nat
  member_id : Option Nat
  guest_id : Option Nat
  pipeliner_id : Option Nat
  status : AStatus
deriving DecidableEq, Repr

/-- The request body of `POST /api/attendance/save` (`AttendancePayload`).
`meetingId` may be absent (`none`) or empty; `upserts`/`deletions` may be
absent, in which case the handler substitutes `[]`. -/
structure Payload where
  meetingId : Option String
  upserts : Option (List UpsertIn)
  deletions : Option (List Nat)
deriving DecidableEq, Repr

/-- JS truthiness of `payload?.meetingId`: absent and `""` are falsy. -/
def meetingIdPresent : Option String → Bool
  | none => false
  | some s => !(s == "")

/-- The JSON body the handler responds with, together with the HTTP status. -/
structure HttpResponse where
  status : Nat
  success : Bool
  records : List ResultRow
  deletedIds : List Nat
  error : Option String
deriving DecidableEq, Repr

/-- Which environment configuration is present at startup:
`SUPABASE_DB_URL`/`DATABASE_URL` (connection string), the service-role key
pair, and the anon key pair. -/
structure Config where
  hasConnectionString : Bool
  hasServiceConfig : Bool
  hasAnonConfig : Bool
deriving DecidableEq, Repr

/-- The three backing-store access strategies. -/
inductive Tier where
  | direct
  | service
  | session
deriving DecidableEq, Repr

/-- Tier selection mirrors the `if (connectionString) … if (hasServiceClient) …`
chain of the route handler: fixed preference order decided by configuration
presence alone. -/
def selectTier (cfg : Config) : Tier :=
  if cfg.hasConnectionString then Tier.direct
  else if cfg.hasServiceConfig then Tier.service
  else Tier.session

/-- Failure injection point: which query (if any) of the selected tier
throws. `atCommit` only exists for the tier-1 transaction. -/
inductive FailAt where
  | noFail
  | atDelete
  | atUpsert
  | atCommit
deriving DecidableEq, Repr

/-- One row of the tier-1 insert-or-update statement:
`coalesce(id, gen_random_uuid())` then
`insert … on conflict (id) do update set status = excluded.status`
with `returning id, member_id, guest_id, pipeliner_id, status`.
On conflict only `status` changes and the returned row is the stored row
with the new status. A missing `id` consumes one fresh id from the supply. -/
def upsertOne (store : List DbRow) (supply : Nat) (u : UpsertIn) :
    List DbRow × Nat × ResultRow :=
  match u.id with
  | some i =>
    match store.find? (fun r => r.id == i) with
    | some old =>
      (store.map (fun r => if r.id = i then { r with status := u.status } else r),
       supply,
       ⟨old.id, old.member_id, old.guest_id, old.pipeliner_id, u.status⟩)
    | none =>
      (store ++ [⟨i, u.meeting_id, u.member_id, u.guest_id, u.pipeliner_id, u.status⟩],
       supply,
       ⟨i, u.member_id, u.guest_id, u.pipeliner_id, u.status⟩)
  | none =>
    (store ++ [⟨supply, u.meeting_id, u.member_id, u.guest_id, u.pipeliner_id, u.status⟩],
     supply + 1,
     ⟨supply, u.member_id, u.guest_id, u.pipeliner_id, u.status⟩)

/-- The whole tier-1 upsert statement over the payload array, in order. -/
def runUpserts (us : List UpsertIn) (store : List DbRow) (supply : Nat) :
    List DbRow × Nat × List ResultRow :=
  match us with
  | [] => (store, supply, [])
  | u :: rest =>
    let s1 := upsertOne store supply u
    let s2 := runUpserts rest s1.1 s1.2.1
    (s2.1, s2.2.1, s1.2.2 :: s2.2.2)

/-- Tier 1 (`connectionString` branch): `BEGIN`; `DELETE FROM attendance
WHERE id = ANY(deletions)`; the insert-or-update statement; `COMMIT`.
All queries act on a transactional working copy that only becomes the
store at `COMMIT`; the `catch` block issues `ROLLBACK`, so on any failure
the store is returned unchanged. -/
def tier1Save (store : List DbRow) (supply : Nat) (deletions : List Nat)
    (upserts : List UpsertIn) (fail : FailAt) :
    List DbRow × Nat × Except String (List ResultRow × List Nat) :=
  if fail = FailAt.atDelete then (store, supply, Except.error "delete failed")
  else
    let afterDel := store.filter (fun r => !(deletions.contains r.id))
    if fail = FailAt.atUpsert then (store, supply, Except.error "upsert failed")
    else
      let s := runUpserts upserts afterDel supply
      if fail = FailAt.atCommit then (store, supply, Except.error "commit failed")
      else (s.1, s.2.1, Except.ok (s.2.2, deletions))

/-- One row of the supabase `.upsert(sanitizedUpserts, { onConflict: "id" })`
call of tiers 2/3: on conflict the whole row is replaced; an entry whose
`id` was stripped by `normalizeUpsertPayload` gets a server-generated id. -/
def supaUpsertOne (store : List DbRow) (supply : Nat) (u : UpsertIn) :
    List DbRow × Nat × ResultRow :=
  match u.id with
  | some i =>
    if (store.find? (fun r => r.id == i)).isSome then
      (store.map (fun r =>
         if r.id = i then
           ⟨i, u.meeting_id, u.member_id, u.guest_id, u.pipeliner_id, u.status⟩
         else r),
       supply,
       ⟨i, u.member_id, u.guest_id, u.pipeliner_id, u.status⟩)
    else
      (store ++ [⟨i, u.meeting_id, u.member_id, u.guest_id, u.pipeliner_id, u.status⟩],
       supply,
       ⟨i, u.member_id, u.guest_id, u.pipeliner_id, u.status⟩)
  | none =>
    (store ++ [⟨supply, u.meeting_id, u.member_id, u.guest_id, u.pipeliner_id, u.status⟩],
     supply + 1,
     ⟨supply, u.member_id, u.guest_id, u.pipeliner_id, u.status⟩)

/-- The supabase upsert call over the payload array, in order. -/
def runSupaUpserts (us : List UpsertIn) (store : List DbRow) (supply : Nat) :
    List DbRow × Nat × List ResultRow :=
  match us with
  | [] => (store, supply, [])
  | u :: rest =>
    let s1 := supaUpsertOne store supply u
    let s2 := runSupaUpserts rest s1.1 s1.2.1
    (s2.1, s2.2.1, s1.2.2 :: s2.2.2)

/-- `saveAttendanceWithSupabaseClient` (tiers 2/3): a delete call then an
upsert call, as two separate API calls with no surrounding transaction —
a failure of the upsert call leaves the deletions applied. On success it
returns `{ records: upsertRows, deletedIds: deletions }`. -/
def supabaseSave (store : List DbRow) (supply : Nat) (deletions : List Nat)
    (upserts : List UpsertIn) (fail : FailAt) :
    List DbRow × Nat × Except String (List ResultRow × List Nat) :=
  if fail = FailAt.atDelete then (store, supply, Except.error "delete failed")
  else
    let afterDel := store.filter (fun r => !(deletions.contains r.id))
    if fail = FailAt.atUpsert then (afterDel, supply, Except.error "upsert failed")
    else
      let s := runSupaUpserts upserts afterDel supply
      (s.1, s.2.1, Except.ok (s.2.2, deletions))

/-- The outcome of one `POST` call: the HTTP response, the backing store
afterwards, the fresh-id supply afterwards, and which adapter tiers were
attempted (in order). -/
structure GatewayResult where
  resp : HttpResponse
  store : List DbRow
  supply : Nat
  tiersAttempted : List Tier
deriving DecidableEq, Repr

/-- The `POST` route handler: validate `meetingId` (falsy check, before any
store access), normalize `upserts`/`deletions` to `[]`, then dispatch to
exactly one tier chosen by configuration presence. Each tier's failure is
answered with a 500 `{ success: false, error }` and no other tier runs.
The caller-scoped session tier additionally throws when the anon-key
configuration is missing. -/
def handlePOST (cfg : Config) (payload : Payload) (store : List DbRow)
    (supply : Nat) (fail : FailAt) : GatewayResult :=
  if meetingIdPresent payload.meetingId then
    let upserts := payload.upserts.getD []
    let deletions := payload.deletions.getD []
    if cfg.hasConnectionString then
      match tier1Save store supply deletions upserts fail with
      | (st, sp, Except.ok (rows, ds)) =>
        ⟨⟨200, true, rows, ds, none⟩, st, sp, [Tier.direct]⟩
      | (st, sp, Except.error e) =>
        ⟨⟨500, false, [], [], some e⟩, st, sp, [Tier.direct]⟩
    else if cfg.hasServiceConfig then
      match supabaseSave store supply deletions upserts fail with
      | (st, sp, Except.ok (rows, ds)) =>
        ⟨⟨200, true, rows, ds, none⟩, st, sp, [Tier.service]⟩
      | (st, sp, Except.error e) =>
        ⟨⟨500, false, [], [], some e⟩, st, sp, [Tier.service]⟩
    else
      if cfg.hasAnonConfig then
        match supabaseSave store supply deletions upserts fail with
        | (st, sp, Except.ok (rows, ds)) =>
          ⟨⟨200, true, rows, ds, none⟩, st, sp, [Tier.session]⟩
        | (st, sp, Except.error e) =>
          ⟨⟨500, false, [], [], some e⟩, st, sp, [Tier.session]⟩
      else
        ⟨⟨500, false, [], [], some "Supabase configuration is missing."⟩,
         store, supply, [Tier.session]⟩
  else
    ⟨⟨400, false, [], [], some "meetingId is required."⟩, store, supply, []⟩

/-! ### Client-side ledger (the attendance page)

`memberAttendance` / `guestAttendance` / `pipelinerAttendance` are JS
objects keyed by subject id; they are modelled as association lists with
JS object update semantics (replace in place, new keys appended).
`memberInitialRef` etc. are the baseline refs. -/

/-- `MemberAttendanceEntry`: `{ attendanceId, status }`; `status = none`
is the JS `null`, meaning "unset". -/
structure MemberEntry where
  attendanceId : Option Nat
  status : Option AStatus
deriving DecidableEq, Repr

/-- `GuestAttendanceEntry` and `PipelinerAttendanceEntry`:
`{ attendanceId, attended }`. -/
structure GuestEntry where
  attendanceId : Option Nat
  attended : Bool
deriving DecidableEq, Repr

/-- A member attendance map. -/
abbrev MMap := List (Nat × MemberEntry)

/-- A guest (or pipeliner) attendance map. -/
abbrev GMap := List (Nat × GuestEntry)

/-- `map[id]` on a JS object: `none` when the key is absent. -/
def mlookup (m : MMap) (k : Nat) : Option MemberEntry :=
  (m.find? (fun p => p.1 == k)).map (fun p => p.2)

/-- `map[id] = v` on a JS object: replace the existing key in place,
append when the key is new. -/
def mset : MMap → Nat → MemberEntry → MMap
  | [], k, v => [(k, v)]
  | p :: rest, k, v => if p.1 = k then (k, v) :: rest else p :: mset rest k v

/-- `map[id]` for guest/pipeliner maps. -/
def glookup (m : GMap) (k : Nat) : Option GuestEntry :=
  (m.find? (fun p => p.1 == k)).map (fun p => p.2)

/-- `map[id] = v` for guest/pipeliner maps. -/
def gset : GMap → Nat → GuestEntry → GMap
  | [], k, v => [(k, v)]
  | p :: rest, k, v => if p.1 = k then (k, v) :: rest else p :: gset rest k v

/-- `{ attendanceId: null, status: null }`. -/
def emptyMemberEntry : MemberEntry := ⟨none, none⟩

/-- `{ attendanceId: null, attended: false }`. -/
def emptyGuestEntry : GuestEntry := ⟨none, false⟩

/-- `hasUnsavedMemberChanges` for one member:
`(memberAttendance[id]?.status ?? null) !== (memberInitialRef.current[id]?.status ?? null)`. -/
def memberIsDirty (att init : MMap) (m : Nat) : Bool :=
  !(((mlookup att m).bind (fun e => e.status)) ==
    ((mlookup init m).bind (fun e => e.status)))

/-! ### Diff engine (the loops at the top of `saveAttendance`) -/

/-- `currentStatus` of the member loop:
`(memberAttendance[id] ?? {attendanceId:null,status:null}).status ?? null`. -/
def diffCurStatus (att : MMap) (m : Nat) : Option AStatus :=
  ((mlookup att m).getD emptyMemberEntry).status

/-- `attendanceId = current.attendanceId ?? initial.attendanceId ?? null`. -/
def diffAttId (att init : MMap) (m : Nat) : Option Nat :=
  (((mlookup att m).getD emptyMemberEntry).attendanceId).orElse
    (fun _ => ((mlookup init m).getD emptyMemberEntry).attendanceId)

/-- `initial.attendanceId` (the id used for deletions). -/
def diffInitAttId (init : MMap) (m : Nat) : Option Nat :=
  ((mlookup init m).getD emptyMemberEntry).attendanceId

/-- One iteration of the member diff loop (lines pushing into
`memberUpserts` and `deletions`): skip when `currentStatus === initialStatus`;
emit an upsert when `currentStatus` is truthy; otherwise emit a deletion of
`initial.attendanceId` when that is truthy. -/
def memberDiffStep (mid : Nat) (att init : MMap) (m : Nat) :
    List UpsertIn × List Nat :=
  if diffCurStatus att m = diffCurStatus init m then ([], [])
  else
    match diffCurStatus att m with
    | some s => ([⟨diffAttId att init m, mid, some m, none, none, s⟩], [])
    | none =>
      match diffInitAttId init m with
      | some aid => ([], [aid])
      | none => ([], [])

/-- The member diff loop over the roster, in order. -/
def memberDiff (mid : Nat) (att init : MMap) : List Nat → List UpsertIn × List Nat
  | [] => ([], [])
  | m :: rest =>
    let s := memberDiffStep mid att init m
    let r := memberDiff mid att init rest
    (s.1 ++ r.1, s.2 ++ r.2)

/-- `current.attended` of the guest loop. -/
def gCurAttended (att : GMap) (g : Nat) : Bool :=
  ((glookup att g).getD emptyGuestEntry).attended

/-- `attendanceId = current.attendanceId ?? initial.attendanceId ?? null`
for the guest loop. -/
def gDiffAttId (att init : GMap) (g : Nat) : Option Nat :=
  (((glookup att g).getD emptyGuestEntry).attendanceId).orElse
    (fun _ => ((glookup init g).getD emptyGuestEntry).attendanceId)

/-- `initial.attendanceId` for the guest loop. -/
def gDiffInitAttId (init : GMap) (g : Nat) : Option Nat :=
  ((glookup init g).getD emptyGuestEntry).attendanceId

/-- One iteration of the guest loop: skip when
`current.attended === initial.attended`; an attended guest is upserted with
status `present` in the `guest_id` slot; otherwise the persisted row is
deleted. -/
def guestDiffStep (mid : Nat) (att init : GMap) (g : Nat) :
    List UpsertIn × List Nat :=
  if gCurAttended att g = gCurAttended init g then ([], [])
  else if gCurAttended att g then
    ([⟨gDiffAttId att init g, mid, none, some g, none, AStatus.present⟩], [])
  else
    match gDiffInitAttId init g with
    | some aid => ([], [aid])
    | none => ([], [])

/-- The guest diff loop over the guest list, in order. -/
def guestDiff (mid : Nat) (att init : GMap) : List Nat → List UpsertIn × List Nat
  | [] => ([], [])
  | g :: rest =>
    let s := guestDiffStep mid att init g
    let r := guestDiff mid att init rest
    (s.1 ++ r.1, s.2 ++ r.2)

/-- One iteration of the pipeliner loop: identical to the guest loop except
the id goes into the `pipeliner_id` slot. -/
def pipelinerDiffStep (mid : Nat) (att init : GMap) (p : Nat) :
    List UpsertIn × List Nat :=
  if gCurAttended att p = gCurAttended init p then ([], [])
  else if gCurAttended att p then
    ([⟨gDiffAttId att init p, mid, none, none, some p, AStatus.present⟩], [])
  else
    match gDiffInitAttId init p with
    | some aid => ([], [aid])
    | none => ([], [])

/-- The pipeliner diff loop, in order. -/
def pipelinerDiff (mid : Nat) (att init : GMap) : List Nat → List UpsertIn × List Nat
  | [] => ([], [])
  | p :: rest =>
    let s := pipelinerDiffStep mid att init p
    let r := pipelinerDiff mid att init rest
    (s.1 ++ r.1, s.2 ++ r.2)

/-- The full diff of `saveAttendance`:
`upserts = [...memberUpserts, ...guestUpserts, ...pipelinerUpserts]` and the
shared `deletions` array, which the three loops push into in that order. -/
def saveDiff (mid : Nat) (members guests pipeliners : List Nat)
    (mAtt mInit : MMap) (gAtt gInit pAtt pInit : GMap) :
    List UpsertIn × List Nat :=
  let md := memberDiff mid mAtt mInit members
  let gd := guestDiff mid gAtt gInit guests
  let pd := pipelinerDiff mid pAtt pInit pipeliners
  (md.1 ++ gd.1 ++ pd.1, md.2 ++ gd.2 ++ pd.2)

/-! ### Reconciliation merge (the `setMemberAttendance` updater after a
successful save, plus `memberInitialRef.current = snapshotMemberAttendance(next)`) -/

/-- `let attendanceId = existing.attendanceId;
if (attendanceId && deletionSet.has(attendanceId)) attendanceId = null;`. -/
def clearDeletedId (deleted : List Nat) (e : MemberEntry) : MemberEntry :=
  match e.attendanceId with
  | some a => if deleted.contains a then ⟨none, e.status⟩ else e
  | none => e

/-- The first loop of the merge: rebuild `next` over the member roster from
`prev[id] ?? memberInitialRef.current[id] ?? empty`, clearing attendance ids
found in `deletionSet` and keeping `existing.status`. -/
def mergeMemberBase (members : List Nat) (deleted : List Nat)
    (prev init : MMap) : MMap :=
  members.map (fun m =>
    let existing :=
      ((mlookup prev m).orElse (fun _ => mlookup init m)).getD emptyMemberEntry
    (m, clearDeletedId deleted existing))

/-- The second loop of the merge: for every response record carrying a
`member_id`, overwrite `next[member_id]` with the canonical
`{ attendanceId: record.id, status: record.status }`. -/
def applyMemberRecords (recs : List ResultRow) (next : MMap) : MMap :=
  recs.foldl
    (fun acc r =>
      match r.member_id with
      | some mId => mset acc mId ⟨some r.id, some r.status⟩
      | none => acc)
    next

/-- The member part of the reconciliation merge. The returned pair is
(`memberAttendance` afterwards, `memberInitialRef.current` afterwards);
the source ends with `memberInitialRef.current = snapshotMemberAttendance(next)`,
so both components are the same map. -/
def mergeMembers (members : List Nat) (recs : List ResultRow)
    (deleted : List Nat) (prev init : MMap) : MMap × MMap :=
  let next := applyMemberRecords recs (mergeMemberBase members deleted prev init)
  (next, next)

/-! ### `loadAttendance` and the roster back-fill effects

The row loop fills three maps with an else-if priority (`member_id`, then
`guest_id`, then `pipeliner_id`); each map is then installed as the new
state and snapshotted into its initial ref. Three `useEffect`s back-fill
the member roster, the guest list and the pipeliner list. -/

/-- The row loop of `loadAttendance`: rows with a `member_id` populate
`memberMap[member_id] = { attendanceId: row.id, status: row.status }`
(the `member_id` branch is checked first). -/
def buildMemberMap (rows : List DbRow) : MMap :=
  rows.foldl
    (fun acc r =>
      match r.member_id with
      | some mId => mset acc mId ⟨some r.id, some r.status⟩
      | none => acc)
    []

/-- The `useEffect` over `members` that back-fills roster members missing
from the map, defaulting to `memberInitialRef.current[id] ?? empty` and
writing the same entry back into the ref. -/
def ensureMembers : List Nat → MMap → MMap → MMap × MMap
  | [], att, init => (att, init)
  | m :: rest, att, init =>
    match mlookup att m with
    | some _ => ensureMembers rest att init
    | none =>
      let initial := (mlookup init m).getD emptyMemberEntry
      ensureMembers rest (mset att m initial) (mset init m initial)

/-- A (re)load for the currently selected meeting followed by the roster
back-fill effect: `loadAttendance` replaces `memberAttendance` with the
freshly built map and sets `memberInitialRef.current` to its snapshot —
the previous maps do not flow in at all. -/
def loadThenEnsure (members : List Nat) (rows : List DbRow) : MMap × MMap :=
  let m := buildMemberMap rows
  ensureMembers members m m

/-- The guest branch of the row loop: rows without a `member_id` but with a
`guest_id` populate
`guestMap[guest_id] = { attendanceId: row.id, attended: row.status === "present" }`. -/
def buildGuestMap (rows : List DbRow) : GMap :=
  rows.foldl
    (fun acc r =>
      match r.member_id with
      | some _ => acc
      | none =>
        match r.guest_id with
        | some gId => gset acc gId ⟨some r.id, r.status == AStatus.present⟩
        | none => acc)
    []

/-- The pipeliner branch of the row loop: rows with neither a `member_id`
nor a `guest_id` but with a `pipeliner_id` populate
`pipelinerMap[pipeliner_id] = { attendanceId: row.id, attended: row.status === "present" }`. -/
def buildPipelinerMap (rows : List DbRow) : GMap :=
  rows.foldl
    (fun acc r =>
      match r.member_id with
      | some _ => acc
      | none =>
        match r.guest_id with
        | some _ => acc
        | none =>
          match r.pipeliner_id with
          | some pId => gset acc pId ⟨some r.id, r.status == AStatus.present⟩
          | none => acc)
    []

/-- The `useEffect`s over `guests` and over `pipelinerEligibility` are
textually identical: back-fill every listed subject missing from the map,
defaulting to `initialRef.current[id] ?? { attendanceId: null, attended: false }`
and writing the same entry back into the ref. Both effects are modelled by
this one function. -/
def ensureGEntries : List Nat → GMap → GMap → GMap × GMap
  | [], att, init => (att, init)
  | g :: rest, att, init =>
    match glookup att g with
    | some _ => ensureGEntries rest att init
    | none =>
      let initial := (glookup init g).getD emptyGuestEntry
      ensureGEntries rest (gset att g initial) (gset init g initial)

/-- `hasUnsavedGuestChanges` / `hasUnsavedPipelinerChanges` for one subject:
`(att[id]?.attended ?? false) !== (initRef[id]?.attended ?? false)`. -/
def guestIsDirty (att init : GMap) (g : Nat) : Bool :=
  !(gCurAttended att g == gCurAttended init g)

/-- A (re)load of the guest map followed by the guest back-fill effect:
`setGuestAttendance(guestMap)` plus `guestInitialRef.current = snapshot`,
ignoring the previous maps. -/
def loadThenEnsureGuests (guests : List Nat) (rows : List DbRow) : GMap × GMap :=
  let m := buildGuestMap rows
  ensureGEntries guests m m

/-- A (re)load of the pipeliner map followed by the pipeliner back-fill
effect, ignoring the previous maps. -/
def loadThenEnsurePipeliners (pipeliners : List Nat) (rows : List DbRow) :
    GMap × GMap :=
  let m := buildPipelinerMap rows
  ensureGEntries pipeliners m m

/-! ### Autosave scheduling and the saving guard, as a transition system

State components mirror the page's hooks: `meeting` (`selectedMeetingId`
non-empty), `saving`, `armed` (an autosave timer is pending), `dirty`
(`hasUnsavedChanges`), and `sent` counts network requests issued by
`saveAttendance`. -/
structure ClientState where
  meeting : Bool
  saving : Bool
  armed : Bool
  dirty : Bool
  sent : Nat
deriving DecidableEq, Repr

/-- The scheduling `useEffect`: clear any pending timer, then arm one iff a
meeting is selected, there are unsaved changes, and no save is in flight.
It re-runs whenever any of those dependencies changes. -/
def runScheduleEffect (s : ClientState) : ClientState :=
  { s with armed := s.meeting && s.dirty && !s.saving }

/-- `saveAttendance`: return immediately (no request) when no meeting is
selected or a save is already in flight; return (no request) when the diff
is empty; otherwise set `saving`, issue the request, and let the effect
drop the timer. -/
def attemptSave (s : ClientState) : ClientState :=
  if !s.meeting || s.saving then s
  else if !s.dirty then s
  else runScheduleEffect { s with saving := true, sent := s.sent + 1 }

/-- Events of the client loop: a dirtying edit, the autosave timer firing,
a manual save click, and the in-flight save completing with success or
failure. -/
inductive ClientEvent where
  | edit
  | timerFire
  | manualSave
  | saveDone (ok : Bool)
deriving DecidableEq, Repr

/-- One step of the client loop. An edit marks the ledger dirty and re-runs
the effect (debounce re-arm). The timer firing invokes `saveAttendance`
with the automatic flag. A completed save clears `saving`; on success the
merge snapshots the ledger so `dirty` drops, on failure the dirty entries
are kept; the effect then re-runs because `saving` changed. -/
def step (s : ClientState) : ClientEvent → ClientState
  | ClientEvent.edit => runScheduleEffect { s with dirty := true }
  | ClientEvent.timerFire =>
    if s.armed then attemptSave { s with armed := false } else s
  | ClientEvent.manualSave => attemptSave s
  | ClientEvent.saveDone ok =>
    if s.saving then
      runScheduleEffect { s with saving := false, dirty := s.dirty && !ok }
    else s

/-- The idle page with a meeting selected and nothing dirty. -/
def initialClientState : ClientState := ⟨true, false, false, false, 0⟩

/-! ## Gateway theorems -/

/-- Claim C8: a request whose `meetingId` is missing or empty — whatever the
`upserts` and `deletions` content — is answered `400` with
`{ success: false, error }`, the store is untouched and no adapter tier is
attempted (no connection opened, no query issued). -/
theorem c8_missing_meetingId_fails_fast (cfg : Config) (payload : Payload)
    (store : List DbRow) (supply : Nat) (fail : FailAt)
    (h : meetingIdPresent payload.meetingId = false) :
    handlePOST cfg payload store supply fail =
      ⟨⟨400, false, [], [], some "meetingId is required."⟩, store, supply, []⟩ := by
  simp [handlePOST, h]

/-- Witness for C8 at a concrete request with a non-trivial batch and an
empty `meetingId`. -/
theorem c8_witness :
    meetingIdPresent (Payload.mk (some "") (some [⟨none, 7, some 3, none, none, AStatus.present⟩]) (some [4])).meetingId = false ∧
    handlePOST ⟨true, true, true⟩
        ⟨some "", some [⟨none, 7, some 3, none, none, AStatus.present⟩], some [4]⟩
        [⟨4, 7, some 3, none, none, AStatus.absent⟩] 0 FailAt.noFail =
      ⟨⟨400, false, [], [], some "meetingId is required."⟩,
       [⟨4, 7, some 3, none, none, AStatus.absent⟩], 0, []⟩ :=
  ⟨by decide,
   c8_missing_meetingId_fails_fast ⟨true, true, true⟩
     ⟨some "", some [⟨none, 7, some 3, none, none, AStatus.present⟩], some [4]⟩
     [⟨4, 7, some 3, none, none, AStatus.absent⟩] 0 FailAt.noFail (by decide)⟩

/-- Claim C2: when the tier-1 direct transactional connection handles the
request, a failure at any step (deletion, upsert, or commit) rolls the
transaction back — the store is returned unchanged — and the response is a
500 `{ success: false, error }` carrying no records and no deletedIds. -/
theorem c2_tier1_failure_leaves_store_unchanged (cfg : Config)
    (payload : Payload) (store : List DbRow) (supply : Nat) (fail : FailAt)
    (hc : cfg.hasConnectionString = true)
    (hpre : meetingIdPresent payload.meetingId = true)
    (hf : fail ≠ FailAt.noFail) :
    (handlePOST cfg payload store supply fail).store = store ∧
    (handlePOST cfg payload store supply fail).resp.success = false ∧
    (handlePOST cfg payload store supply fail).resp.status = 500 ∧
    (handlePOST cfg payload store supply fail).resp.records = [] ∧
    (handlePOST cfg payload store supply fail).resp.deletedIds = [] ∧
    ((handlePOST cfg payload store supply fail).resp.error).isSome = true := by
  cases fail <;> simp_all [handlePOST, tier1Save]

/-- Witness for C2: a forced failure between the deletions and the upserts
of a mixed batch leaves a one-row store intact. -/
theorem c2_witness :
    (⟨true, false, false⟩ : Config).hasConnectionString = true ∧
    (handlePOST ⟨true, false, false⟩
        ⟨some "m", some [⟨none, 7, some 3, none, none, AStatus.present⟩], some [4]⟩
        [⟨4, 7, none, some 9, none, AStatus.present⟩] 0 FailAt.atUpsert).store =
      [⟨4, 7, none, some 9, none, AStatus.present⟩] ∧
    (handlePOST ⟨true, false, false⟩
        ⟨some "m", some [⟨none, 7, some 3, none, none, AStatus.present⟩], some [4]⟩
        [⟨4, 7, none, some 9, none, AStatus.present⟩] 0 FailAt.atUpsert).resp.success = false :=
  ⟨by decide,
   (c2_tier1_failure_leaves_store_unchanged ⟨true, false, false⟩
     ⟨some "m", some [⟨none, 7, some 3, none, none, AStatus.present⟩], some [4]⟩
     [⟨4, 7, none, some 9, none, AStatus.present⟩] 0 FailAt.atUpsert
     (by decide) (by decide) (by decide)).1,
   (c2_tier1_failure_leaves_store_unchanged ⟨true, false, false⟩
     ⟨some "m", some [⟨none, 7, some 3, none, none, AStatus.present⟩], some [4]⟩
     [⟨4, 7, none, some 9, none, AStatus.present⟩] 0 FailAt.atUpsert
     (by decide) (by decide) (by decide)).2.1⟩

/-- Claim C9: once validation passes, exactly one adapter tier handles the
request — the one picked from configuration presence in the fixed order
direct connection, service client, session client — and a failing step
inside that tier yields a 500 error response without the request being
retried under any other tier (the attempted-tier list is still exactly the
selected singleton). -/
theorem c9_exactly_one_tier (cfg : Config) (payload : Payload)
    (store : List DbRow) (supply : Nat) (fail : FailAt)
    (hpre : meetingIdPresent payload.meetingId = true) :
    (handlePOST cfg payload store supply fail).tiersAttempted = [selectTier cfg] ∧
    ((fail = FailAt.atDelete ∨ fail = FailAt.atUpsert) →
      (handlePOST cfg payload store supply fail).resp.success = false ∧
      (handlePOST cfg payload store supply fail).resp.status = 500) := by
  obtain ⟨hc, hs, ha⟩ := cfg
  cases hc <;> cases hs <;> cases ha <;> cases fail <;>
    simp_all [handlePOST, selectTier, tier1Save, supabaseSave]

/-- Witness for C9: with only the service-client configuration present, a
failing delete step is answered 500 and only the service tier was tried. -/
theorem c9_witness :
    meetingIdPresent (some "m") = true ∧
    (handlePOST ⟨false, true, true⟩ ⟨some "m", some [], some [4]⟩
        [⟨4, 7, some 3, none, none, AStatus.absent⟩] 0 FailAt.atDelete).tiersAttempted =
      [selectTier ⟨false, true, true⟩] ∧
    (handlePOST ⟨false, true, true⟩ ⟨some "m", some [], some [4]⟩
        [⟨4, 7, some 3, none, none, AStatus.absent⟩] 0 FailAt.atDelete).resp.success = false :=
  ⟨by decide,
   (c9_exactly_one_tier ⟨false, true, true⟩ ⟨some "m", some [], some [4]⟩
     [⟨4, 7, some 3, none, none, AStatus.absent⟩] 0 FailAt.atDelete (by decide)).1,
   ((c9_exactly_one_tier ⟨false, true, true⟩ ⟨some "m", some [], some [4]⟩
     [⟨4, 7, some 3, none, none, AStatus.absent⟩] 0 FailAt.atDelete (by decide)).2
     (Or.inl rfl)).1⟩

/-- Claim C10: every successful response echoes the request's `deletions`
array verbatim as `deletedIds` — same identifiers, same order, whether or
not they matched any stored row; no tier computes what was actually
removed. -/
theorem c10_deletedIds_echo_request (cfg : Config) (payload : Payload)
    (store : List DbRow) (supply : Nat) (fail : FailAt)
    (h : (handlePOST cfg payload store supply fail).resp.success = true) :
    (handlePOST cfg payload store supply fail).resp.deletedIds =
      payload.deletions.getD [] := by
  obtain ⟨hc, hs, ha⟩ := cfg
  cases hpre : meetingIdPresent payload.meetingId <;>
    cases hc <;> cases hs <;> cases ha <;> cases fail <;>
      simp_all [handlePOST, tier1Save, supabaseSave]

/-- Witness for C10: an empty store and a deletion list naming an id that
matches no row; the response still echoes it. -/
theorem c10_witness :
    (handlePOST ⟨true, false, false⟩ ⟨some "m", some [], some [5, 6]⟩
        [] 0 FailAt.noFail).resp.success = true ∧
    (handlePOST ⟨true, false, false⟩ ⟨some "m", some [], some [5, 6]⟩
        [] 0 FailAt.noFail).resp.deletedIds =
      (Payload.mk (some "m") (some []) (some [5, 6])).deletions.getD [] :=
  ⟨by decide,
   c10_deletedIds_echo_request ⟨true, false, false⟩ ⟨some "m", some [], some [5, 6]⟩
     [] 0 FailAt.noFail (by decide)⟩

/-- With an explicit `id`, the tier-1 insert-or-update of one row neither
consumes nor consults the fresh-id supply. -/
lemma upsertOne_some_supply (store : List DbRow) (s s' : Nat) (u : UpsertIn)
    (i : Nat) (hi : u.id = some i) :
    (upsertOne store s u).1 = (upsertOne store s' u).1 ∧
    (upsertOne store s u).2.1 = s ∧
    (upsertOne store s u).2.2 = (upsertOne store s' u).2.2 := by
  cases hf : store.find? (fun r => r.id == i) <;> simp [upsertOne, hi, hf]

/-- A tier-1 upsert batch whose rows all carry explicit ids produces the
same rows and the same post-store from any supply. -/
lemma runUpserts_supply_indep (us : List UpsertIn) (store : List DbRow)
    (s s' : Nat) (h : ∀ u ∈ us, u.id ≠ none) :
    (runUpserts us store s).1 = (runUpserts us store s').1 ∧
    (runUpserts us store s).2.2 = (runUpserts us store s').2.2 := by
  induction us generalizing store s s' with
  | nil => simp [runUpserts]
  | cons u rest ih =>
    have hu : u.id ≠ none := h u (by simp)
    obtain ⟨i, hi⟩ : ∃ i, u.id = some i := by
      cases hid : u.id
      · exact absurd hid hu
      · exact ⟨_, rfl⟩
    obtain ⟨e1, e2, e3⟩ := upsertOne_some_supply store s s' u i hi
    obtain ⟨_, f2, _⟩ := upsertOne_some_supply store s' s u i hi
    have ihr := ih ((upsertOne store s' u).1) s s'
      (fun v hv => h v (List.mem_cons_of_mem _ hv))
    simp only [runUpserts]
    rw [e2, f2, e1, e3]
    exact ⟨ihr.1, by rw [ihr.2]⟩

/-- Same statement for the supabase upsert call of tiers 2/3. -/
lemma supaUpsertOne_some_supply (store : List DbRow) (s s' : Nat)
    (u : UpsertIn) (i : Nat) (hi : u.id = some i) :
    (supaUpsertOne store s u).1 = (supaUpsertOne store s' u).1 ∧
    (supaUpsertOne store s u).2.1 = s ∧
    (supaUpsertOne store s u).2.2 = (supaUpsertOne store s' u).2.2 := by
  cases hf : (store.find? (fun r => r.id == i)).isSome <;> simp [supaUpsertOne, hi, hf]

/-- A supabase upsert batch whose rows all carry explicit ids produces the
same rows and the same post-store from any supply. -/
lemma runSupaUpserts_supply_indep (us : List UpsertIn) (store : List DbRow)
    (s s' : Nat) (h : ∀ u ∈ us, u.id ≠ none) :
    (runSupaUpserts us store s).1 = (runSupaUpserts us store s').1 ∧
    (runSupaUpserts us store s).2.2 = (runSupaUpserts us store s').2.2 := by
  induction us generalizing store s s' with
  | nil => simp [runSupaUpserts]
  | cons u rest ih =>
    have hu : u.id ≠ none := h u (by simp)
    obtain ⟨i, hi⟩ : ∃ i, u.id = some i := by
      cases hid : u.id
      · exact absurd hid hu
      · exact ⟨_, rfl⟩
    obtain ⟨e1, e2, e3⟩ := supaUpsertOne_some_supply store s s' u i hi
    obtain ⟨_, f2, _⟩ := supaUpsertOne_some_supply store s' s u i hi
    have ihr := ih ((supaUpsertOne store s' u).1) s s'
      (fun v hv => h v (List.mem_cons_of_mem _ hv))
    simp only [runSupaUpserts]
    rw [e2, f2, e1, e3]
    exact ⟨ihr.1, by rw [ihr.2]⟩

/-- Counterexample to claim C4: a request whose single upsert row has
`id == null`, replayed a second time against the same (empty) baseline
store. `gen_random_uuid()` never reproduces an earlier value, so the
second call draws from a later supply position — the first call returns
supply position 1 — and the two successful responses carry different
canonical ids. -/
theorem c4_replay_counterexample :
    (handlePOST ⟨true, false, false⟩
        ⟨some "m", some [⟨none, 7, some 3, none, none, AStatus.present⟩], some []⟩
        [] 0 FailAt.noFail).resp.success = true ∧
    (handlePOST ⟨true, false, false⟩
        ⟨some "m", some [⟨none, 7, some 3, none, none, AStatus.present⟩], some []⟩
        [] 0 FailAt.noFail).supply = 1 ∧
    (handlePOST ⟨true, false, false⟩
        ⟨some "m", some [⟨none, 7, some 3, none, none, AStatus.present⟩], some []⟩
        [] 1 FailAt.noFail).resp.success = true ∧
    (handlePOST ⟨true, false, false⟩
        ⟨some "m", some [⟨none, 7, some 3, none, none, AStatus.present⟩], some []⟩
        [] 0 FailAt.noFail).resp.records ≠
      (handlePOST ⟨true, false, false⟩
        ⟨some "m", some [⟨none, 7, some 3, none, none, AStatus.present⟩], some []⟩
        [] 1 FailAt.noFail).resp.records := by
  refine ⟨by decide, by decide, by decide, by decide⟩

/-- Claim C4 as amended: replaying a successful `BatchRequest` against the
same baseline store yields the same `BatchResponse` (records and all) when
every upsert row carries a non-null id — upsert-by-identifier is
idempotent; rows with `id == null` are assigned a freshly generated
identifier on each run, so their canonical ids differ across replays. -/
theorem c4_replay_idempotent_for_non_null_ids (cfg : Config)
    (payload : Payload) (store : List DbRow) (s s' : Nat)
    (h : ∀ u ∈ payload.upserts.getD [], u.id ≠ none) :
    (handlePOST cfg payload store s FailAt.noFail).resp =
      (handlePOST cfg payload store s' FailAt.noFail).resp := by
  obtain ⟨hc, hs, ha⟩ := cfg
  cases hpre : meetingIdPresent payload.meetingId
  · simp [handlePOST, hpre]
  · have h1 := runUpserts_supply_indep (payload.upserts.getD [])
      (store.filter (fun r => !((payload.deletions.getD []).contains r.id))) s s' h
    have h2 := runSupaUpserts_supply_indep (payload.upserts.getD [])
      (store.filter (fun r => !((payload.deletions.getD []).contains r.id))) s s' h
    cases hc <;> cases hs <;> cases ha <;>
      simp_all [handlePOST, hpre, tier1Save, supabaseSave]

/-- Witness for the amended C4: a request that updates an existing row by
its id replays identically from two different supply positions. -/
theorem c4_witness :
    (∀ u ∈ (Payload.mk (some "m")
        (some [⟨some 4, 7, some 3, none, none, AStatus.apology⟩])
        (some [])).upserts.getD [], u.id ≠ none) ∧
    (handlePOST ⟨true, false, false⟩
        ⟨some "m", some [⟨some 4, 7, some 3, none, none, AStatus.apology⟩], some []⟩
        [⟨4, 7, some 3, none, none, AStatus.present⟩] 0 FailAt.noFail).resp =
      (handlePOST ⟨true, false, false⟩
        ⟨some "m", some [⟨some 4, 7, some 3, none, none, AStatus.apology⟩], some []⟩
        [⟨4, 7, some 3, none, none, AStatus.present⟩] 5 FailAt.noFail).resp :=
  ⟨by decide,
   c4_replay_idempotent_for_non_null_ids ⟨true, false, false⟩
     ⟨some "m", some [⟨some 4, 7, some 3, none, none, AStatus.apology⟩], some []⟩
     [⟨4, 7, some 3, none, none, AStatus.present⟩] 0 5 (by decide)⟩

/-! ## Client-loop theorems -/

/-- Claim C7: at most one save is in flight. From any state satisfying the
running invariant "while saving, no autosave timer is armed", every event
preserves that invariant, and while a save is in flight both a manual save
click and a timer fire are complete no-ops: the state is unchanged and no
network request is issued. -/
theorem c7_single_save_in_flight (s : ClientState) (e : ClientEvent)
    (hinv : s.saving = true → s.armed = false) :
    ((step s e).saving = true → (step s e).armed = false) ∧
    (s.saving = true →
      step s ClientEvent.manualSave = s ∧ step s ClientEvent.timerFire = s) := by
  obtain ⟨m, sv, ar, d, n⟩ := s
  cases e <;> cases m <;> cases sv <;> cases ar <;> cases d <;>
    simp_all [step, attemptSave, runScheduleEffect]

/-- Witness for C7: a dirty state with a save in flight; a manual click and
a firing timer both leave it untouched, and an edit keeps the timer
unarmed. -/
theorem c7_witness :
    ((⟨true, true, false, true, 1⟩ : ClientState).saving = true →
      (⟨true, true, false, true, 1⟩ : ClientState).armed = false) ∧
    (((step ⟨true, true, false, true, 1⟩ ClientEvent.edit).saving = true →
      (step ⟨true, true, false, true, 1⟩ ClientEvent.edit).armed = false) ∧
     ((⟨true, true, false, true, 1⟩ : ClientState).saving = true →
       step ⟨true, true, false, true, 1⟩ ClientEvent.manualSave =
         ⟨true, true, false, true, 1⟩ ∧
       step ⟨true, true, false, true, 1⟩ ClientEvent.timerFire =
         ⟨true, true, false, true, 1⟩)) :=
  ⟨by decide, c7_single_save_in_flight ⟨true, true, false, true, 1⟩
    ClientEvent.edit (by decide)⟩

/-- Counterexample to claim C6: starting idle, one edit, then a manual save
that fails. The scheduling effect re-runs once `saving` drops and re-arms
the autosave timer even though the failed save was manual and no new edit
arrived; when that timer fires, an automatic save request goes out. -/
theorem c6_failed_manual_save_auto_retries :
    (step (step (step initialClientState ClientEvent.edit) ClientEvent.manualSave)
        (ClientEvent.saveDone false)).armed = true ∧
    (step (step (step (step initialClientState ClientEvent.edit)
          ClientEvent.manualSave) (ClientEvent.saveDone false))
        ClientEvent.timerFire).sent =
      (step (step (step initialClientState ClientEvent.edit)
          ClientEvent.manualSave) (ClientEvent.saveDone false)).sent + 1 := by
  decide

/-- Claim C6 as amended: the scheduling effect keys only on
`selectedMeetingId`, `hasUnsavedChanges` and `saving` — after any failed
save, manual or automatic, it re-arms the autosave timer as soon as the
save completes while dirty entries remain; a later automatic retry fires
without any new edit. -/
theorem c6_amended_any_failed_save_rearms (s : ClientState)
    (hs : s.saving = true) (hm : s.meeting = true) (hd : s.dirty = true) :
    (step s (ClientEvent.saveDone false)).armed = true ∧
    (step s (ClientEvent.saveDone false)).dirty = true ∧
    (step s (ClientEvent.saveDone false)).saving = false := by
  obtain ⟨m, sv, ar, d, n⟩ := s
  simp_all [step, runScheduleEffect]

/-- Witness for the amended C6: the state right after a failing manual save
of a dirty ledger. -/
theorem c6_witness :
    (⟨true, true, false, true, 1⟩ : ClientState).saving = true ∧
    (step ⟨true, true, false, true, 1⟩ (ClientEvent.saveDone false)).armed = true :=
  ⟨by decide,
   (c6_amended_any_failed_save_rearms ⟨true, true, false, true, 1⟩
     (by decide) (by decide) (by decide)).1⟩

/-! ## Reconciliation-merge and load theorems -/

/-- Claim C1 fails on the code (code bug): member 0 has persisted baseline
`present` under attendance id 1; while a save whose batch does not include
member 0 is in flight, the operator edits member 0 to `absent`; the save
succeeds with `records = []`, `deletedIds = []`. The merge rebuilds the map
keeping the newer `absent` edit, but then snapshots the whole map into
`memberInitialRef.current`, so member 0 reports `isDirty == false` although
the `absent` edit was never sent to the store — the unrelated save's merge
silently absorbs the edit into the baseline instead of preserving its
dirtiness. -/
theorem c1_unrelated_merge_clears_dirtiness :
    memberIsDirty [(0, ⟨some 1, some AStatus.absent⟩)]
      [(0, ⟨some 1, some AStatus.present⟩)] 0 = true ∧
    (mergeMembers [0] [] [] [(0, ⟨some 1, some AStatus.absent⟩)]
        [(0, ⟨some 1, some AStatus.present⟩)]).1 =
      [(0, ⟨some 1, some AStatus.absent⟩)] ∧
    (mergeMembers [0] [] [] [(0, ⟨some 1, some AStatus.absent⟩)]
        [(0, ⟨some 1, some AStatus.present⟩)]).2 =
      [(0, ⟨some 1, some AStatus.absent⟩)] ∧
    memberIsDirty
      (mergeMembers [0] [] [] [(0, ⟨some 1, some AStatus.absent⟩)]
        [(0, ⟨some 1, some AStatus.present⟩)]).1
      (mergeMembers [0] [] [] [(0, ⟨some 1, some AStatus.absent⟩)]
        [(0, ⟨some 1, some AStatus.present⟩)]).2 0 = false := by
  decide

/-- Writing key `k` then reading it gives the written entry. -/
lemma mlookup_mset_self (mm : MMap) (k : Nat) (v : MemberEntry) :
    mlookup (mset mm k v) k = some v := by
  induction mm with
  | nil => simp [mset, mlookup]
  | cons p rest ih =>
    by_cases hp : p.1 = k <;> simp [mset, mlookup, List.find?, hp] at ih ⊢
    · exact ih

/-- Writing key `k` leaves every other key's entry unchanged. -/
lemma mlookup_mset_ne (mm : MMap) (k : Nat) (v : MemberEntry) (m : Nat)
    (h : ¬m = k) :
    mlookup (mset mm k v) m = mlookup mm m := by
  have hkm : (k == m) = false := by
    simp only [beq_eq_false_iff_ne, ne_eq]
    intro hk
    exact h hk.symm
  induction mm with
  | nil => simp [mset, mlookup, List.find?, hkm]
  | cons p rest ih =>
    by_cases hp : p.1 = k
    · subst hp
      simp [mset, mlookup, List.find?, hkm]
    · by_cases hm : p.1 = m
      · simp [mset, mlookup, List.find?, hp, hm, h]
      · have hpm : (p.1 == m) = false := by simp [hm]
        simp only [mset, if_neg hp, mlookup, List.find?, hpm]
        exact ih

/-- The roster back-fill keeps the two components of an equal pair equal. -/
lemma ensureMembers_components_eq (ms : List Nat) (a : MMap) :
    (ensureMembers ms a a).2 = (ensureMembers ms a a).1 := by
  induction ms generalizing a with
  | nil => simp [ensureMembers]
  | cons k rest ih =>
    cases hk : mlookup a k <;> simp [ensureMembers, hk, ih]

/-- The roster back-fill never disturbs a key that is already present. -/
lemma ensureMembers_lookup_some (ms : List Nat) (a b : MMap) (m : Nat)
    (e : MemberEntry) (h : mlookup a m = some e) :
    mlookup (ensureMembers ms a b).1 m = some e := by
  induction ms generalizing a b with
  | nil => simpa [ensureMembers] using h
  | cons k rest ih =>
    cases hk : mlookup a k with
    | some _ => simpa [ensureMembers, hk] using ih a b h
    | none =>
      have hkm : ¬m = k := by
        intro hmk
        rw [hmk] at h
        rw [h] at hk
        exact Option.noConfusion hk
      have h' : mlookup (mset a k ((mlookup b k).getD emptyMemberEntry)) m = some e := by
        rw [mlookup_mset_ne a k _ m hkm]
        exact h
      simpa [ensureMembers, hk] using ih _ _ h'

/-- Starting from equal maps, the roster back-fill gives every roster
member the entry the loaded map had for it, or the empty entry. -/
lemma ensureMembers_lookup_mem (ms : List Nat) (a : MMap) (m : Nat)
    (h : m ∈ ms) :
    mlookup (ensureMembers ms a a).1 m =
      some ((mlookup a m).getD emptyMemberEntry) := by
  induction ms generalizing a with
  | nil => cases h
  | cons k rest ih =>
    cases hk : mlookup a k with
    | some e =>
      rcases List.mem_cons.mp h with hmk | hmr
      · subst hmk
        simpa [ensureMembers, hk] using ensureMembers_lookup_some rest a a m e hk
      · simpa [ensureMembers, hk] using ih a hmr
    | none =>
      rcases List.mem_cons.mp h with hmk | hmr
      · subst hmk
        have hself := mlookup_mset_self a m ((mlookup a m).getD emptyMemberEntry)
        simpa [ensureMembers, hk] using
          ensureMembers_lookup_some rest _ _ m _ hself
      · by_cases hmk : m = k
        · subst hmk
          have hself := mlookup_mset_self a m ((mlookup a m).getD emptyMemberEntry)
          simpa [ensureMembers, hk] using
            ensureMembers_lookup_some rest _ _ m _ hself
        · have := ih (mset a k ((mlookup a k).getD emptyMemberEntry)) hmr
          rw [mlookup_mset_ne a k _ m hmk] at this
          simpa [ensureMembers, hk] using this

/-- A subject whose current and baseline maps coincide is never dirty. -/
lemma memberIsDirty_self (a : MMap) (m : Nat) :
    memberIsDirty a a m = false := by
  simp [memberIsDirty]

/-- Writing key `k` in a guest/pipeliner map then reading it gives the
written entry. -/
lemma glookup_gset_self (mm : GMap) (k : Nat) (v : GuestEntry) :
    glookup (gset mm k v) k = some v := by
  induction mm with
  | nil => simp [gset, glookup]
  | cons p rest ih =>
    by_cases hp : p.1 = k <;> simp [gset, glookup, List.find?, hp] at ih ⊢
    · exact ih

/-- Writing key `k` in a guest/pipeliner map leaves every other key's entry
unchanged. -/
lemma glookup_gset_ne (mm : GMap) (k : Nat) (v : GuestEntry) (m : Nat)
    (h : ¬m = k) :
    glookup (gset mm k v) m = glookup mm m := by
  have hkm : (k == m) = false := by
    simp only [beq_eq_false_iff_ne, ne_eq]
    intro hk
    exact h hk.symm
  induction mm with
  | nil => simp [gset, glookup, List.find?, hkm]
  | cons p rest ih =>
    by_cases hp : p.1 = k
    · subst hp
      simp [gset, glookup, List.find?, hkm]
    · by_cases hm : p.1 = m
      · simp [gset, glookup, List.find?, hp, hm, h]
      · have hpm : (p.1 == m) = false := by simp [hm]
        simp only [gset, if_neg hp, glookup, List.find?, hpm]
        exact ih

/-- The guest/pipeliner back-fill keeps the two components of an equal pair
equal. -/
lemma ensureGEntries_components_eq (gs : List Nat) (a : GMap) :
    (ensureGEntries gs a a).2 = (ensureGEntries gs a a).1 := by
  induction gs generalizing a with
  | nil => simp [ensureGEntries]
  | cons k rest ih =>
    cases hk : glookup a k <;> simp [ensureGEntries, hk, ih]

/-- The guest/pipeliner back-fill never disturbs a key that is already
present. -/
lemma ensureGEntries_lookup_some (gs : List Nat) (a b : GMap) (g : Nat)
    (e : GuestEntry) (h : glookup a g = some e) :
    glookup (ensureGEntries gs a b).1 g = some e := by
  induction gs generalizing a b with
  | nil => simpa [ensureGEntries] using h
  | cons k rest ih =>
    cases hk : glookup a k with
    | some _ => simpa [ensureGEntries, hk] using ih a b h
    | none =>
      have hkg : ¬g = k := by
        intro hgk
        rw [hgk] at h
        rw [h] at hk
        exact Option.noConfusion hk
      have h' : glookup (gset a k ((glookup b k).getD emptyGuestEntry)) g = some e := by
        rw [glookup_gset_ne a k _ g hkg]
        exact h
      simpa [ensureGEntries, hk] using ih _ _ h'

/-- Starting from equal guest/pipeliner maps, the back-fill gives every
listed subject the entry the loaded map had for it, or the empty entry. -/
lemma ensureGEntries_lookup_mem (gs : List Nat) (a : GMap) (g : Nat)
    (h : g ∈ gs) :
    glookup (ensureGEntries gs a a).1 g =
      some ((glookup a g).getD emptyGuestEntry) := by
  induction gs generalizing a with
  | nil => cases h
  | cons k rest ih =>
    cases hk : glookup a k with
    | some e =>
      rcases List.mem_cons.mp h with hgk | hgr
      · subst hgk
        simpa [ensureGEntries, hk] using ensureGEntries_lookup_some rest a a g e hk
      · simpa [ensureGEntries, hk] using ih a hgr
    | none =>
      rcases List.mem_cons.mp h with hgk | hgr
      · subst hgk
        have hself := glookup_gset_self a g ((glookup a g).getD emptyGuestEntry)
        simpa [ensureGEntries, hk] using
          ensureGEntries_lookup_some rest _ _ g _ hself
      · by_cases hgk : g = k
        · subst hgk
          have hself := glookup_gset_self a g ((glookup a g).getD emptyGuestEntry)
          simpa [ensureGEntries, hk] using
            ensureGEntries_lookup_some rest _ _ g _ hself
        · have := ih (gset a k ((glookup a k).getD emptyGuestEntry)) hgr
          rw [glookup_gset_ne a k _ g hgk] at this
          simpa [ensureGEntries, hk] using this

/-- A guest/pipeliner whose current and baseline maps coincide is never
dirty. -/
lemma guestIsDirty_self (a : GMap) (g : Nat) :
    guestIsDirty a a g = false := by
  simp [guestIsDirty]

/-- Counterexample to claim C5: member 0 carries an unsaved edit
(`current = present`, baseline unset — dirty). A second load for the same
meeting returns no row for member 0; `loadAttendance` rebuilds both maps
from the rows alone and the roster effect re-adds member 0 with the empty
entry, so the unsaved `present` edit and the dirtiness are gone rather
than preserved. -/
theorem c5_reload_discards_unsaved_edit :
    memberIsDirty [(0, ⟨none, some AStatus.present⟩)] [(0, ⟨none, none⟩)] 0 = true ∧
    (loadThenEnsure [0] []).1 = [(0, emptyMemberEntry)] ∧
    (loadThenEnsure [0] []).2 = [(0, emptyMemberEntry)] ∧
    ((mlookup (loadThenEnsure [0] []).1 0).bind (fun e => e.status)) ≠
      some AStatus.present ∧
    memberIsDirty (loadThenEnsure [0] []).1 (loadThenEnsure [0] []).2 0 = false := by
  decide

/-- Concrete loaded rows for the C5 witness: one row per subject kind. -/
def c5Wrows : List DbRow :=
  [⟨7, 9, some 3, none, none, AStatus.present⟩,
   ⟨8, 9, none, some 10, none, AStatus.present⟩,
   ⟨12, 9, none, none, some 20, AStatus.absent⟩]

/-- Claim C5 as amended: a (re)load for the same meeting is a full reset,
not a monotonic merge, for all three subject kinds. The member, guest and
pipeliner maps are each rebuilt from the loaded rows alone: every subject
covered by the rows carries exactly the loaded entry, every roster subject
not covered is reset to the empty entry, each baseline ref equals its
attendance map, and no subject of any kind is dirty afterwards — unsaved
edits made before the load are discarded, not preserved. -/
theorem c5_amended_load_fully_resets (members guests pipeliners : List Nat)
    (rows : List DbRow) :
    ((loadThenEnsure members rows).2 = (loadThenEnsure members rows).1 ∧
     (∀ m e, mlookup (buildMemberMap rows) m = some e →
       mlookup (loadThenEnsure members rows).1 m = some e) ∧
     (∀ m, m ∈ members →
       mlookup (loadThenEnsure members rows).1 m =
         some ((mlookup (buildMemberMap rows) m).getD emptyMemberEntry)) ∧
     (∀ m, memberIsDirty (loadThenEnsure members rows).1
         (loadThenEnsure members rows).2 m = false)) ∧
    ((loadThenEnsureGuests guests rows).2 = (loadThenEnsureGuests guests rows).1 ∧
     (∀ g e, glookup (buildGuestMap rows) g = some e →
       glookup (loadThenEnsureGuests guests rows).1 g = some e) ∧
     (∀ g, g ∈ guests →
       glookup (loadThenEnsureGuests guests rows).1 g =
         some ((glookup (buildGuestMap rows) g).getD emptyGuestEntry)) ∧
     (∀ g, guestIsDirty (loadThenEnsureGuests guests rows).1
         (loadThenEnsureGuests guests rows).2 g = false)) ∧
    ((loadThenEnsurePipeliners pipeliners rows).2 =
       (loadThenEnsurePipeliners pipeliners rows).1 ∧
     (∀ p e, glookup (buildPipelinerMap rows) p = some e →
       glookup (loadThenEnsurePipeliners pipeliners rows).1 p = some e) ∧
     (∀ p, p ∈ pipeliners →
       glookup (loadThenEnsurePipeliners pipeliners rows).1 p =
         some ((glookup (buildPipelinerMap rows) p).getD emptyGuestEntry)) ∧
     (∀ p, guestIsDirty (loadThenEnsurePipeliners pipeliners rows).1
         (loadThenEnsurePipeliners pipeliners rows).2 p = false)) := by
  refine ⟨⟨ensureMembers_components_eq members (buildMemberMap rows),
      fun m e he => ensureMembers_lookup_some members _ _ m e he,
      fun m hm => ensureMembers_lookup_mem members (buildMemberMap rows) m hm,
      fun m => ?_⟩,
    ⟨ensureGEntries_components_eq guests (buildGuestMap rows),
      fun g e he => ensureGEntries_lookup_some guests _ _ g e he,
      fun g hg => ensureGEntries_lookup_mem guests (buildGuestMap rows) g hg,
      fun g => ?_⟩,
    ⟨ensureGEntries_components_eq pipeliners (buildPipelinerMap rows),
      fun p e he => ensureGEntries_lookup_some pipeliners _ _ p e he,
      fun p hp => ensureGEntries_lookup_mem pipeliners (buildPipelinerMap rows) p hp,
      fun p => ?_⟩⟩
  · rw [loadThenEnsure, ensureMembers_components_eq members (buildMemberMap rows)]
    exact memberIsDirty_self _ m
  · rw [loadThenEnsureGuests, ensureGEntries_components_eq guests (buildGuestMap rows)]
    exact guestIsDirty_self _ g
  · rw [loadThenEnsurePipeliners,
      ensureGEntries_components_eq pipeliners (buildPipelinerMap rows)]
    exact guestIsDirty_self _ p

/-- Witness for the amended C5: rows covering member 3, guest 10 and
pipeliner 20 (the pipeliner row's `absent` status loads as not attended);
member 0 and guest 11 are on the rosters but not covered. -/
theorem c5_witness :
    ((loadThenEnsure [3, 0] c5Wrows).2 = (loadThenEnsure [3, 0] c5Wrows).1 ∧
     (∀ m e, mlookup (buildMemberMap c5Wrows) m = some e →
       mlookup (loadThenEnsure [3, 0] c5Wrows).1 m = some e) ∧
     (∀ m, m ∈ ([3, 0] : List Nat) →
       mlookup (loadThenEnsure [3, 0] c5Wrows).1 m =
         some ((mlookup (buildMemberMap c5Wrows) m).getD emptyMemberEntry)) ∧
     (∀ m, memberIsDirty (loadThenEnsure [3, 0] c5Wrows).1
         (loadThenEnsure [3, 0] c5Wrows).2 m = false)) ∧
    ((loadThenEnsureGuests [10, 11] c5Wrows).2 =
       (loadThenEnsureGuests [10, 11] c5Wrows).1 ∧
     (∀ g e, glookup (buildGuestMap c5Wrows) g = some e →
       glookup (loadThenEnsureGuests [10, 11] c5Wrows).1 g = some e) ∧
     (∀ g, g ∈ ([10, 11] : List Nat) →
       glookup (loadThenEnsureGuests [10, 11] c5Wrows).1 g =
         some ((glookup (buildGuestMap c5Wrows) g).getD emptyGuestEntry)) ∧
     (∀ g, guestIsDirty (loadThenEnsureGuests [10, 11] c5Wrows).1
         (loadThenEnsureGuests [10, 11] c5Wrows).2 g = false)) ∧
    ((loadThenEnsurePipeliners [20] c5Wrows).2 =
       (loadThenEnsurePipeliners [20] c5Wrows).1 ∧
     (∀ p e, glookup (buildPipelinerMap c5Wrows) p = some e →
       glookup (loadThenEnsurePipeliners [20] c5Wrows).1 p = some e) ∧
     (∀ p, p ∈ ([20] : List Nat) →
       glookup (loadThenEnsurePipeliners [20] c5Wrows).1 p =
         some ((glookup (buildPipelinerMap c5Wrows) p).getD emptyGuestEntry)) ∧
     (∀ p, guestIsDirty (loadThenEnsurePipeliners [20] c5Wrows).1
         (loadThenEnsurePipeliners [20] c5Wrows).2 p = false)) :=
  c5_amended_load_fully_resets [3, 0] [10, 11] [20] c5Wrows

/-! ## Diff-engine theorems (claim C3)

Per-subject characterizations of the three diff loops: one optional upsert
and one optional deletion per subject, collected in roster order. -/

/-- The upsert (if any) the member loop emits for one member. -/
def memberUpsertOpt (mid : Nat) (att init : MMap) (m : Nat) : Option UpsertIn :=
  if diffCurStatus att m = diffCurStatus init m then none
  else
    match diffCurStatus att m with
    | some s => some ⟨diffAttId att init m, mid, some m, none, none, s⟩
    | none => none

/-- The deletion (if any) the member loop emits for one member. -/
def memberDelOpt (att init : MMap) (m : Nat) : Option Nat :=
  if diffCurStatus att m = diffCurStatus init m then none
  else
    match diffCurStatus att m with
    | some _ => none
    | none => diffInitAttId init m

/-- The upsert (if any) the guest loop emits for one guest. -/
def guestUpsertOpt (mid : Nat) (att init : GMap) (g : Nat) : Option UpsertIn :=
  if gCurAttended att g = gCurAttended init g then none
  else if gCurAttended att g then
    some ⟨gDiffAttId att init g, mid, none, some g, none, AStatus.present⟩
  else none

/-- The deletion (if any) the guest loop emits for one guest. -/
def guestDelOpt (att init : GMap) (g : Nat) : Option Nat :=
  if gCurAttended att g = gCurAttended init g then none
  else if gCurAttended att g then none
  else gDiffInitAttId init g

/-- The upsert (if any) the pipeliner loop emits for one pipeliner. -/
def pipelinerUpsertOpt (mid : Nat) (att init : GMap) (p : Nat) : Option UpsertIn :=
  if gCurAttended att p = gCurAttended init p then none
  else if gCurAttended att p then
    some ⟨gDiffAttId att init p, mid, none, none, some p, AStatus.present⟩
  else none

/-- The deletion (if any) the pipeliner loop emits for one pipeliner. -/
def pipelinerDelOpt (att init : GMap) (p : Nat) : Option Nat :=
  if gCurAttended att p = gCurAttended init p then none
  else if gCurAttended att p then none
  else gDiffInitAttId init p

/-- One member-loop iteration emits exactly its optional upsert and its
optional deletion. -/
lemma memberDiffStep_eq (mid : Nat) (att init : MMap) (m : Nat) :
    memberDiffStep mid att init m =
      ((memberUpsertOpt mid att init m).toList, (memberDelOpt att init m).toList) := by
  by_cases h : diffCurStatus att m = diffCurStatus init m
  · simp [memberDiffStep, memberUpsertOpt, memberDelOpt, h]
  · cases hc : diffCurStatus att m with
    | some s =>
      rw [hc] at h
      simp [memberDiffStep, memberUpsertOpt, memberDelOpt, hc, h]
    | none =>
      rw [hc] at h
      cases hi : diffInitAttId init m <;>
        simp [memberDiffStep, memberUpsertOpt, memberDelOpt, hc, h, hi]

/-- The member loop is the in-order collection of the per-member emissions. -/
lemma memberDiff_eq (mid : Nat) (att init : MMap) (ms : List Nat) :
    memberDiff mid att init ms =
      (ms.filterMap (memberUpsertOpt mid att init),
       ms.filterMap (memberDelOpt att init)) := by
  induction ms with
  | nil => simp [memberDiff]
  | cons m rest ih =>
    simp only [memberDiff, ih, memberDiffStep_eq, List.filterMap_cons]
    cases memberUpsertOpt mid att init m <;> cases memberDelOpt att init m <;> simp

/-- One guest-loop iteration emits exactly its optional upsert and its
optional deletion. -/
lemma guestDiffStep_eq (mid : Nat) (att init : GMap) (g : Nat) :
    guestDiffStep mid att init g =
      ((guestUpsertOpt mid att init g).toList, (guestDelOpt att init g).toList) := by
  by_cases h : gCurAttended att g = gCurAttended init g
  · simp [guestDiffStep, guestUpsertOpt, guestDelOpt, h]
  · cases hc : gCurAttended att g <;> cases hinit : gCurAttended init g <;>
      rw [hc, hinit] at h <;>
      first
        | exact absurd rfl h
        | (cases hi : gDiffInitAttId init g <;>
            simp [guestDiffStep, guestUpsertOpt, guestDelOpt, hc, hinit, hi])

/-- The guest loop is the in-order collection of the per-guest emissions. -/
lemma guestDiff_eq (mid : Nat) (att init : GMap) (gs : List Nat) :
    guestDiff mid att init gs =
      (gs.filterMap (guestUpsertOpt mid att init),
       gs.filterMap (guestDelOpt att init)) := by
  induction gs with
  | nil => simp [guestDiff]
  | cons g rest ih =>
    simp only [guestDiff, ih, guestDiffStep_eq, List.filterMap_cons]
    cases guestUpsertOpt mid att init g <;> cases guestDelOpt att init g <;> simp

/-- One pipeliner-loop iteration emits exactly its optional upsert and its
optional deletion. -/
lemma pipelinerDiffStep_eq (mid : Nat) (att init : GMap) (p : Nat) :
    pipelinerDiffStep mid att init p =
      ((pipelinerUpsertOpt mid att init p).toList, (pipelinerDelOpt att init p).toList) := by
  by_cases h : gCurAttended att p = gCurAttended init p
  · simp [pipelinerDiffStep, pipelinerUpsertOpt, pipelinerDelOpt, h]
  · cases hc : gCurAttended att p <;> cases hinit : gCurAttended init p <;>
      rw [hc, hinit] at h <;>
      first
        | exact absurd rfl h
        | (cases hi : gDiffInitAttId init p <;>
            simp [pipelinerDiffStep, pipelinerUpsertOpt, pipelinerDelOpt, hc, hinit, hi])

/-- The pipeliner loop is the in-order collection of the per-pipeliner
emissions. -/
lemma pipelinerDiff_eq (mid : Nat) (att init : GMap) (ps : List Nat) :
    pipelinerDiff mid att init ps =
      (ps.filterMap (pipelinerUpsertOpt mid att init),
       ps.filterMap (pipelinerDelOpt att init)) := by
  induction ps with
  | nil => simp [pipelinerDiff]
  | cons p rest ih =>
    simp only [pipelinerDiff, ih, pipelinerDiffStep_eq, List.filterMap_cons]
    cases pipelinerUpsertOpt mid att init p <;> cases pipelinerDelOpt att init p <;> simp

/-- Filtering an in-order per-roster collection by one roster entry's key
keeps exactly that entry's emission, provided the roster has no duplicates
and the key identifies the emitting entry. -/
lemma filterMap_filter_key (f : Nat → Option UpsertIn) (key : UpsertIn → Option Nat)
    (hkey : ∀ x u, f x = some u → key u = some x)
    (ms : List Nat) (hnd : ms.Nodup) (m : Nat) (hm : m ∈ ms) :
    (ms.filterMap f).filter (fun u => key u == some m) = (f m).toList := by
  induction ms with
  | nil => cases hm
  | cons k rest ih =>
    obtain ⟨hk, hrest⟩ := List.nodup_cons.mp hnd
    rcases List.mem_cons.mp hm with hmk | hmr
    · subst hmk
      have hrestnil : (rest.filterMap f).filter (fun u => key u == some m) = [] := by
        refine List.filter_eq_nil_iff.mpr (fun u hu => ?_)
        obtain ⟨x, hx, hfx⟩ := List.mem_filterMap.mp hu
        have hkx := hkey x u hfx
        simp only [hkx, beq_iff_eq, Option.some.injEq]
        intro hxm
        exact hk (hxm ▸ hx)
      cases hf : f m with
      | none => simpa [List.filterMap_cons, hf] using hrestnil
      | some u =>
        have hku := hkey m u hf
        simp [List.filterMap_cons, hf, List.filter_cons, hku, hrestnil]
    · have hkm : k ≠ m := fun hkm => hk (hkm ▸ hmr)
      cases hf : f k with
      | none => simpa [List.filterMap_cons, hf] using ih hrest hmr
      | some u =>
        have hku := hkey k u hf
        have hfalse : (key u == some m) = false := by simp [hku, hkm]
        simp [List.filterMap_cons, hf, List.filter_cons, hfalse, ih hrest hmr]

/-- Rows whose key slot is empty never survive a key filter. -/
lemma filter_of_key_none (ls : List UpsertIn) (key : UpsertIn → Option Nat)
    (m : Nat) (h : ∀ u ∈ ls, key u = none) :
    ls.filter (fun u => key u == some m) = [] := by
  refine List.filter_eq_nil_iff.mpr (fun u hu => ?_)
  simp [h u hu]

/-- A list member occurs at least once. -/
lemma one_le_count_of_mem {a : Nat} {l : List Nat} (h : a ∈ l) :
    1 ≤ l.count a := by
  by_contra hlt
  have hz : l.count a = 0 := by omega
  exact (List.count_eq_zero.mp hz) h

/-- Pointwise domination of per-roster emissions bounds the collected
occurrence counts. -/
lemma count_filterMap_le (ms : List Nat) (f g : Nat → Option Nat)
    (hfg : ∀ x a, f x = some a → g x = some a) (a : Nat) :
    (ms.filterMap f).count a ≤ (ms.filterMap g).count a := by
  induction ms with
  | nil => simp
  | cons k rest ih =>
    cases hf : f k with
    | none =>
      cases hg : g k <;>
        simp [List.filterMap_cons, hf, hg, List.count_cons] <;> omega
    | some b =>
      have hgk := hfg k b hf
      simp only [List.filterMap_cons, hf, hgk, List.count_cons]
      omega

/-- Two distinct roster entries emitting the same value force at least two
occurrences in the collection. -/
lemma two_le_count_filterMap (ms : List Nat) (g : Nat → Option Nat)
    (m x a : Nat) (hm : m ∈ ms) (hx : x ∈ ms) (hne : m ≠ x)
    (h1 : g m = some a) (h2 : g x = some a) :
    2 ≤ (ms.filterMap g).count a := by
  induction ms with
  | nil => cases hm
  | cons k rest ih =>
    rcases List.mem_cons.mp hm with hmk | hmr
    · subst hmk
      have hxr : x ∈ rest := by
        rcases List.mem_cons.mp hx with h' | h'
        · exact absurd h'.symm hne
        · exact h'
      have hone : 1 ≤ (rest.filterMap g).count a :=
        one_le_count_of_mem (List.mem_filterMap.mpr ⟨x, hxr, h2⟩)
      rw [List.filterMap_cons_some h1, List.count_cons_self]
      omega
    · rcases List.mem_cons.mp hx with hxk | hxr
      · subst hxk
        have hone : 1 ≤ (rest.filterMap g).count a :=
          one_le_count_of_mem (List.mem_filterMap.mpr ⟨m, hmr, h1⟩)
        rw [List.filterMap_cons_some h2, List.count_cons_self]
        omega
      · have := ih hmr hxr
        cases hg : g k with
        | none => rw [List.filterMap_cons_none hg]; omega
        | some b => rw [List.filterMap_cons_some hg, List.count_cons]; omega

/-- With distinct persisted ids, a roster entry that emits a deletion is
the only source of that id in its loop's deletions. -/
lemma count_one_of_delOpt (ms : List Nat) (f g : Nat → Option Nat)
    (hfg : ∀ x a, f x = some a → g x = some a)
    (hnd : (ms.filterMap g).Nodup) (m : Nat) (hm : m ∈ ms) (a : Nat)
    (hfa : f m = some a) :
    (ms.filterMap f).count a = 1 := by
  have hle := count_filterMap_le ms f g hfg a
  have hg1 := List.nodup_iff_count_le_one.mp hnd a
  have hge := one_le_count_of_mem (List.mem_filterMap.mpr ⟨m, hm, hfa⟩)
  omega

/-- With distinct persisted ids, a roster entry that emits no deletion has
its persisted id in none of its loop's deletions. -/
lemma notMem_of_delOpt_none (ms : List Nat) (f g : Nat → Option Nat)
    (hfg : ∀ x a, f x = some a → g x = some a)
    (hnd : (ms.filterMap g).Nodup) (m : Nat) (hm : m ∈ ms) (a : Nat)
    (hga : g m = some a) (hfm : f m = none) :
    a ∉ ms.filterMap f := by
  intro hmem
  obtain ⟨x, hx, hfx⟩ := List.mem_filterMap.mp hmem
  have hgx := hfg x a hfx
  have hxm : ¬m = x := by
    intro h'
    rw [← h'] at hfx
    rw [hfm] at hfx
    exact Option.noConfusion hfx
  have h2 := two_le_count_filterMap ms g m x a hm hx hxm hga hgx
  have hg1 := List.nodup_iff_count_le_one.mp hnd a
  omega

/-- A value outside a loop's persisted ids is outside its deletions. -/
lemma notMem_filterMap_of_pointwise (ms : List Nat) (f g : Nat → Option Nat)
    (hfg : ∀ x a, f x = some a → g x = some a) (a : Nat)
    (ha : a ∉ ms.filterMap g) : a ∉ ms.filterMap f := by
  intro h
  obtain ⟨x, hx, hfx⟩ := List.mem_filterMap.mp h
  exact ha (List.mem_filterMap.mpr ⟨x, hx, hfg x a hfx⟩)

/-- The member loop's upsert for `x` carries `member_id = some x` and empty
guest/pipeliner slots. -/
lemma memberUpsertOpt_slots (mid : Nat) (att init : MMap) (x : Nat)
    (u : UpsertIn) (h : memberUpsertOpt mid att init x = some u) :
    u.member_id = some x ∧ u.guest_id = none ∧ u.pipeliner_id = none := by
  unfold memberUpsertOpt at h
  split at h
  · exact Option.noConfusion h
  · split at h
    · obtain rfl := Option.some.inj h
      exact ⟨rfl, rfl, rfl⟩
    · exact Option.noConfusion h

/-- The guest loop's upsert for `x` carries `guest_id = some x` and empty
member/pipeliner slots. -/
lemma guestUpsertOpt_slots (mid : Nat) (att init : GMap) (x : Nat)
    (u : UpsertIn) (h : guestUpsertOpt mid att init x = some u) :
    u.member_id = none ∧ u.guest_id = some x ∧ u.pipeliner_id = none := by
  unfold guestUpsertOpt at h
  split at h
  · exact Option.noConfusion h
  · split at h
    · obtain rfl := Option.some.inj h
      exact ⟨rfl, rfl, rfl⟩
    · exact Option.noConfusion h

/-- The pipeliner loop's upsert for `x` carries `pipeliner_id = some x` and
empty member/guest slots. -/
lemma pipelinerUpsertOpt_slots (mid : Nat) (att init : GMap) (x : Nat)
    (u : UpsertIn) (h : pipelinerUpsertOpt mid att init x = some u) :
    u.member_id = none ∧ u.guest_id = none ∧ u.pipeliner_id = some x := by
  unfold pipelinerUpsertOpt at h
  split at h
  · exact Option.noConfusion h
  · split at h
    · obtain rfl := Option.some.inj h
      exact ⟨rfl, rfl, rfl⟩
    · exact Option.noConfusion h

/-- A member-loop deletion is always that member's persisted id. -/
lemma memberDelOpt_sub (att init : MMap) (x a : Nat)
    (h : memberDelOpt att init x = some a) :
    diffInitAttId init x = some a := by
  unfold memberDelOpt at h
  split at h
  · exact Option.noConfusion h
  · split at h
    · exact Option.noConfusion h
    · exact h

/-- A guest-loop deletion is always that guest's persisted id. -/
lemma guestDelOpt_sub (att init : GMap) (x a : Nat)
    (h : guestDelOpt att init x = some a) :
    gDiffInitAttId init x = some a := by
  unfold guestDelOpt at h
  split at h
  · exact Option.noConfusion h
  · split at h
    · exact Option.noConfusion h
    · exact h

/-- A pipeliner-loop deletion is always that pipeliner's persisted id. -/
lemma pipelinerDelOpt_sub (att init : GMap) (x a : Nat)
    (h : pipelinerDelOpt att init x = some a) :
    gDiffInitAttId init x = some a := by
  unfold pipelinerDelOpt at h
  split at h
  · exact Option.noConfusion h
  · split at h
    · exact Option.noConfusion h
    · exact h

/-- Filtering the full upsert list by a member's key isolates the member
loop's emission for that member. -/
lemma ups_filter_member (mid : Nat) (members guests pipeliners : List Nat)
    (mAtt mInit : MMap) (gAtt gInit pAtt pInit : GMap)
    (hm : members.Nodup) (m : Nat) (hmm : m ∈ members) :
    ((members.filterMap (memberUpsertOpt mid mAtt mInit) ++
      guests.filterMap (guestUpsertOpt mid gAtt gInit) ++
      pipeliners.filterMap (pipelinerUpsertOpt mid pAtt pInit)).filter
        (fun u => u.member_id == some m)) =
      (memberUpsertOpt mid mAtt mInit m).toList := by
  rw [List.filter_append, List.filter_append]
  rw [filterMap_filter_key _ _
    (fun x u h => (memberUpsertOpt_slots mid mAtt mInit x u h).1) members hm m hmm]
  rw [filter_of_key_none _ _ m (fun u hu => by
    obtain ⟨x, hx, hfx⟩ := List.mem_filterMap.mp hu
    exact (guestUpsertOpt_slots mid gAtt gInit x u hfx).1)]
  rw [filter_of_key_none _ _ m (fun u hu => by
    obtain ⟨x, hx, hfx⟩ := List.mem_filterMap.mp hu
    exact (pipelinerUpsertOpt_slots mid pAtt pInit x u hfx).1)]
  simp

/-- Filtering the full upsert list by a guest's key isolates the guest
loop's emission for that guest. -/
lemma ups_filter_guest (mid : Nat) (members guests pipeliners : List Nat)
    (mAtt mInit : MMap) (gAtt gInit pAtt pInit : GMap)
    (hg : guests.Nodup) (g : Nat) (hgg : g ∈ guests) :
    ((members.filterMap (memberUpsertOpt mid mAtt mInit) ++
      guests.filterMap (guestUpsertOpt mid gAtt gInit) ++
      pipeliners.filterMap (pipelinerUpsertOpt mid pAtt pInit)).filter
        (fun u => u.guest_id == some g)) =
      (guestUpsertOpt mid gAtt gInit g).toList := by
  rw [List.filter_append, List.filter_append]
  rw [filterMap_filter_key _ _
    (fun x u h => (guestUpsertOpt_slots mid gAtt gInit x u h).2.1) guests hg g hgg]
  rw [filter_of_key_none _ (fun u => u.guest_id) g (fun u hu => by
    obtain ⟨x, hx, hfx⟩ := List.mem_filterMap.mp hu
    exact (memberUpsertOpt_slots mid mAtt mInit x u hfx).2.1)]
  rw [filter_of_key_none _ (fun u => u.guest_id) g (fun u hu => by
    obtain ⟨x, hx, hfx⟩ := List.mem_filterMap.mp hu
    exact (pipelinerUpsertOpt_slots mid pAtt pInit x u hfx).2.1)]
  simp

/-- Filtering the full upsert list by a pipeliner's key isolates the
pipeliner loop's emission for that pipeliner. -/
lemma ups_filter_pipeliner (mid : Nat) (members guests pipeliners : List Nat)
    (mAtt mInit : MMap) (gAtt gInit pAtt pInit : GMap)
    (hp : pipeliners.Nodup) (p : Nat) (hpp : p ∈ pipeliners) :
    ((members.filterMap (memberUpsertOpt mid mAtt mInit) ++
      guests.filterMap (guestUpsertOpt mid gAtt gInit) ++
      pipeliners.filterMap (pipelinerUpsertOpt mid pAtt pInit)).filter
        (fun u => u.pipeliner_id == some p)) =
      (pipelinerUpsertOpt mid pAtt pInit p).toList := by
  rw [List.filter_append, List.filter_append]
  rw [filterMap_filter_key _ _
    (fun x u h => (pipelinerUpsertOpt_slots mid pAtt pInit x u h).2.2) pipeliners hp p hpp]
  rw [filter_of_key_none _ (fun u => u.pipeliner_id) p (fun u hu => by
    obtain ⟨x, hx, hfx⟩ := List.mem_filterMap.mp hu
    exact (memberUpsertOpt_slots mid mAtt mInit x u hfx).2.2)]
  rw [filter_of_key_none _ (fun u => u.pipeliner_id) p (fun u hu => by
    obtain ⟨x, hx, hfx⟩ := List.mem_filterMap.mp hu
    exact (guestUpsertOpt_slots mid gAtt gInit x u hfx).2.2)]
  simp

/-- Claim C3: the diff computed at save time is minimal and complete. For
every subject (member, guest or pipeliner) whose current value equals its
baseline, no upsert and no deletion is emitted; for every dirty subject
with a set current value, exactly one upsert
`{ id: attendanceId, subject, status: current }` is emitted (guests and
pipeliners collapse to status `present`) and no deletion of its persisted
row; for every dirty subject whose current value is unset and whose
persisted `attendanceId` is non-null, exactly one deletion of that id and
no upsert. Rosters are duplicate-free and persisted ids are distinct
across the ledger, as the ledger invariant guarantees. -/
theorem c3_diff_minimal_and_complete (mid : Nat)
    (members guests pipeliners : List Nat)
    (mAtt mInit : MMap) (gAtt gInit pAtt pInit : GMap)
    (ups : List UpsertIn) (dels : List Nat)
    (heq : saveDiff mid members guests pipeliners mAtt mInit gAtt gInit pAtt pInit =
      (ups, dels))
    (hm : members.Nodup) (hg : guests.Nodup) (hp : pipeliners.Nodup)
    (hids : (members.filterMap (diffInitAttId mInit) ++
             guests.filterMap (gDiffInitAttId gInit) ++
             pipeliners.filterMap (gDiffInitAttId pInit)).Nodup) :
    (∀ m ∈ members,
      (diffCurStatus mAtt m = diffCurStatus mInit m →
        ups.filter (fun u => u.member_id == some m) = [] ∧
        ∀ a, diffInitAttId mInit m = some a → a ∉ dels) ∧
      (∀ s, diffCurStatus mAtt m = some s →
        ¬diffCurStatus mAtt m = diffCurStatus mInit m →
        ups.filter (fun u => u.member_id == some m) =
          [⟨diffAttId mAtt mInit m, mid, some m, none, none, s⟩] ∧
        ∀ a, diffInitAttId mInit m = some a → a ∉ dels) ∧
      (∀ a, diffCurStatus mAtt m = none →
        ¬diffCurStatus mAtt m = diffCurStatus mInit m →
        diffInitAttId mInit m = some a →
        ups.filter (fun u => u.member_id == some m) = [] ∧ dels.count a = 1)) ∧
    (∀ g ∈ guests,
      (gCurAttended gAtt g = gCurAttended gInit g →
        ups.filter (fun u => u.guest_id == some g) = [] ∧
        ∀ a, gDiffInitAttId gInit g = some a → a ∉ dels) ∧
      (gCurAttended gAtt g = true → gCurAttended gInit g = false →
        ups.filter (fun u => u.guest_id == some g) =
          [⟨gDiffAttId gAtt gInit g, mid, none, some g, none, AStatus.present⟩] ∧
        ∀ a, gDiffInitAttId gInit g = some a → a ∉ dels) ∧
      (∀ a, gCurAttended gAtt g = false → gCurAttended gInit g = true →
        gDiffInitAttId gInit g = some a →
        ups.filter (fun u => u.guest_id == some g) = [] ∧ dels.count a = 1)) ∧
    (∀ p ∈ pipeliners,
      (gCurAttended pAtt p = gCurAttended pInit p →
        ups.filter (fun u => u.pipeliner_id == some p) = [] ∧
        ∀ a, gDiffInitAttId pInit p = some a → a ∉ dels) ∧
      (gCurAttended pAtt p = true → gCurAttended pInit p = false →
        ups.filter (fun u => u.pipeliner_id == some p) =
          [⟨gDiffAttId pAtt pInit p, mid, none, none, some p, AStatus.present⟩] ∧
        ∀ a, gDiffInitAttId pInit p = some a → a ∉ dels) ∧
      (∀ a, gCurAttended pAtt p = false → gCurAttended pInit p = true →
        gDiffInitAttId pInit p = some a →
        ups.filter (fun u => u.pipeliner_id == some p) = [] ∧ dels.count a = 1)) := by
  have hU : ups = members.filterMap (memberUpsertOpt mid mAtt mInit) ++
      guests.filterMap (guestUpsertOpt mid gAtt gInit) ++
      pipeliners.filterMap (pipelinerUpsertOpt mid pAtt pInit) := by
    have h1 := congrArg Prod.fst heq
    simp only [saveDiff, memberDiff_eq, guestDiff_eq, pipelinerDiff_eq] at h1
    exact h1.symm
  have hD : dels = members.filterMap (memberDelOpt mAtt mInit) ++
      guests.filterMap (guestDelOpt gAtt gInit) ++
      pipeliners.filterMap (pipelinerDelOpt pAtt pInit) := by
    have h2 := congrArg Prod.snd heq
    simp only [saveDiff, memberDiff_eq, guestDiff_eq, pipelinerDiff_eq] at h2
    exact h2.symm
  subst hU
  subst hD
  obtain ⟨hAB, hCn, hdAB_C⟩ := List.nodup_append.mp hids
  obtain ⟨hAn, hBn, hdA_B⟩ := List.nodup_append.mp hAB
  have mdel_sub : ∀ x b, memberDelOpt mAtt mInit x = some b →
      diffInitAttId mInit x = some b :=
    fun x b h => memberDelOpt_sub mAtt mInit x b h
  have gdel_sub : ∀ x b, guestDelOpt gAtt gInit x = some b →
      gDiffInitAttId gInit x = some b :=
    fun x b h => guestDelOpt_sub gAtt gInit x b h
  have pdel_sub : ∀ x b, pipelinerDelOpt pAtt pInit x = some b →
      gDiffInitAttId pInit x = some b :=
    fun x b h => pipelinerDelOpt_sub pAtt pInit x b h
  -- per-kind: the persisted id of a subject that emits no deletion is
  -- absent from the combined deletions list
  have mnotdels : ∀ m ∈ members, ∀ a, diffInitAttId mInit m = some a →
      memberDelOpt mAtt mInit m = none →
      a ∉ (members.filterMap (memberDelOpt mAtt mInit) ++
           guests.filterMap (guestDelOpt gAtt gInit) ++
           pipeliners.filterMap (pipelinerDelOpt pAtt pInit)) := by
    intro m hmm a hma hnone hadels
    have haA : a ∈ members.filterMap (diffInitAttId mInit) :=
      List.mem_filterMap.mpr ⟨m, hmm, hma⟩
    simp only [List.mem_append] at hadels
    rcases hadels with (h1 | h2) | h3
    · exact notMem_of_delOpt_none members _ _ mdel_sub hAn m hmm a hma hnone h1
    · exact notMem_filterMap_of_pointwise guests _ _ gdel_sub a
        (fun hb => hdA_B haA hb) h2
    · exact notMem_filterMap_of_pointwise pipeliners _ _ pdel_sub a
        (fun hc => hdAB_C (List.mem_append_left _ haA) hc) h3
  have gnotdels : ∀ g ∈ guests, ∀ a, gDiffInitAttId gInit g = some a →
      guestDelOpt gAtt gInit g = none →
      a ∉ (members.filterMap (memberDelOpt mAtt mInit) ++
           guests.filterMap (guestDelOpt gAtt gInit) ++
           pipeliners.filterMap (pipelinerDelOpt pAtt pInit)) := by
    intro g hgg a hga hnone hadels
    have haB : a ∈ guests.filterMap (gDiffInitAttId gInit) :=
      List.mem_filterMap.mpr ⟨g, hgg, hga⟩
    simp only [List.mem_append] at hadels
    rcases hadels with (h1 | h2) | h3
    · exact notMem_filterMap_of_pointwise members _ _ mdel_sub a
        (fun ha => hdA_B ha haB) h1
    · exact notMem_of_delOpt_none guests _ _ gdel_sub hBn g hgg a hga hnone h2
    · exact notMem_filterMap_of_pointwise pipeliners _ _ pdel_sub a
        (fun hc => hdAB_C (List.mem_append_right _ haB) hc) h3
  have pnotdels : ∀ p ∈ pipeliners, ∀ a, gDiffInitAttId pInit p = some a →
      pipelinerDelOpt pAtt pInit p = none →
      a ∉ (members.filterMap (memberDelOpt mAtt mInit) ++
           guests.filterMap (guestDelOpt gAtt gInit) ++
           pipeliners.filterMap (pipelinerDelOpt pAtt pInit)) := by
    intro p hpp a hpa hnone hadels
    have haC : a ∈ pipeliners.filterMap (gDiffInitAttId pInit) :=
      List.mem_filterMap.mpr ⟨p, hpp, hpa⟩
    simp only [List.mem_append] at hadels
    rcases hadels with (h1 | h2) | h3
    · exact notMem_filterMap_of_pointwise members _ _ mdel_sub a
        (fun ha => hdAB_C (List.mem_append_left _ ha) haC) h1
    · exact notMem_filterMap_of_pointwise guests _ _ gdel_sub a
        (fun hb => hdAB_C (List.mem_append_right _ hb) haC) h2
    · exact notMem_of_delOpt_none pipeliners _ _ pdel_sub hCn p hpp a hpa hnone h3
  refine ⟨fun m hmm => ⟨?_, ?_, ?_⟩, fun g hgg => ⟨?_, ?_, ?_⟩,
    fun p hpp => ⟨?_, ?_, ?_⟩⟩
  -- member, clean
  · intro hc
    refine ⟨?_, fun a hma => mnotdels m hmm a hma (by simp [memberDelOpt, hc])⟩
    rw [ups_filter_member mid members guests pipeliners mAtt mInit gAtt gInit
      pAtt pInit hm m hmm]
    simp [memberUpsertOpt, hc]
  -- member, dirty with a set current status
  · intro s hs hne
    rw [hs] at hne
    have hup : memberUpsertOpt mid mAtt mInit m =
        some ⟨diffAttId mAtt mInit m, mid, some m, none, none, s⟩ := by
      simp only [memberUpsertOpt, hs, if_neg hne]
    refine ⟨?_, fun a hma => mnotdels m hmm a hma
      (by simp only [memberDelOpt, hs, if_neg hne])⟩
    rw [ups_filter_member mid members guests pipeliners mAtt mInit gAtt gInit
      pAtt pInit hm m hmm, hup]
    rfl
  -- member, dirty towards unset with a persisted row
  · intro a hcn hne hma
    rw [hcn] at hne
    have hup : memberUpsertOpt mid mAtt mInit m = none := by
      simp only [memberUpsertOpt, hcn, if_neg hne]
    have hdel : memberDelOpt mAtt mInit m = some a := by
      simp only [memberDelOpt, hcn, if_neg hne]
      exact hma
    constructor
    · rw [ups_filter_member mid members guests pipeliners mAtt mInit gAtt gInit
        pAtt pInit hm m hmm, hup]
      rfl
    · have haA : a ∈ members.filterMap (diffInitAttId mInit) :=
        List.mem_filterMap.mpr ⟨m, hmm, hma⟩
      have h1 : (members.filterMap (memberDelOpt mAtt mInit)).count a = 1 :=
        count_one_of_delOpt members _ _ mdel_sub hAn m hmm a hdel
      have h0B : (guests.filterMap (guestDelOpt gAtt gInit)).count a = 0 :=
        List.count_eq_zero.mpr (notMem_filterMap_of_pointwise guests _ _ gdel_sub a
          (fun hb => hdA_B haA hb))
      have h0C : (pipeliners.filterMap (pipelinerDelOpt pAtt pInit)).count a = 0 :=
        List.count_eq_zero.mpr (notMem_filterMap_of_pointwise pipeliners _ _ pdel_sub a
          (fun hc => hdAB_C (List.mem_append_left _ haA) hc))
      rw [List.count_append, List.count_append, h1, h0B, h0C]
  -- guest, clean
  · intro hc
    refine ⟨?_, fun a hga => gnotdels g hgg a hga (by simp [guestDelOpt, hc])⟩
    rw [ups_filter_guest mid members guests pipeliners mAtt mInit gAtt gInit
      pAtt pInit hg g hgg]
    simp [guestUpsertOpt, hc]
  -- guest, newly attended
  · intro ht hf2
    have hup : guestUpsertOpt mid gAtt gInit g =
        some ⟨gDiffAttId gAtt gInit g, mid, none, some g, none, AStatus.present⟩ := by
      simp [guestUpsertOpt, ht, hf2]
    refine ⟨?_, fun a hga => gnotdels g hgg a hga (by simp [guestDelOpt, ht, hf2])⟩
    rw [ups_filter_guest mid members guests pipeliners mAtt mInit gAtt gInit
      pAtt pInit hg g hgg, hup]
    rfl
  -- guest, newly unattended with a persisted row
  · intro a hf1 ht2 hga
    have hup : guestUpsertOpt mid gAtt gInit g = none := by
      simp [guestUpsertOpt, hf1, ht2]
    have hdel : guestDelOpt gAtt gInit g = some a := by
      simp [guestDelOpt, hf1, ht2]
      exact hga
    constructor
    · rw [ups_filter_guest mid members guests pipeliners mAtt mInit gAtt gInit
        pAtt pInit hg g hgg, hup]
      rfl
    · have haB : a ∈ guests.filterMap (gDiffInitAttId gInit) :=
        List.mem_filterMap.mpr ⟨g, hgg, hga⟩
      have h1 : (guests.filterMap (guestDelOpt gAtt gInit)).count a = 1 :=
        count_one_of_delOpt guests _ _ gdel_sub hBn g hgg a hdel
      have h0A : (members.filterMap (memberDelOpt mAtt mInit)).count a = 0 :=
        List.count_eq_zero.mpr (notMem_filterMap_of_pointwise members _ _ mdel_sub a
          (fun ha => hdA_B ha haB))
      have h0C : (pipeliners.filterMap (pipelinerDelOpt pAtt pInit)).count a = 0 :=
        List.count_eq_zero.mpr (notMem_filterMap_of_pointwise pipeliners _ _ pdel_sub a
          (fun hc => hdAB_C (List.mem_append_right _ haB) hc))
      rw [List.count_append, List.count_append, h1, h0A, h0C]
  -- pipeliner, clean
  · intro hc
    refine ⟨?_, fun a hpa => pnotdels p hpp a hpa (by simp [pipelinerDelOpt, hc])⟩
    rw [ups_filter_pipeliner mid members guests pipeliners mAtt mInit gAtt gInit
      pAtt pInit hp p hpp]
    simp [pipelinerUpsertOpt, hc]
  -- pipeliner, newly attended
  · intro ht hf2
    have hup : pipelinerUpsertOpt mid pAtt pInit p =
        some ⟨gDiffAttId pAtt pInit p, mid, none, none, some p, AStatus.present⟩ := by
      simp [pipelinerUpsertOpt, ht, hf2]
    refine ⟨?_, fun a hpa => pnotdels p hpp a hpa
      (by simp [pipelinerDelOpt, ht, hf2])⟩
    rw [ups_filter_pipeliner mid members guests pipeliners mAtt mInit gAtt gInit
      pAtt pInit hp p hpp, hup]
    rfl
  -- pipeliner, newly unattended with a persisted row
  · intro a hf1 ht2 hpa
    have hup : pipelinerUpsertOpt mid pAtt pInit p = none := by
      simp [pipelinerUpsertOpt, hf1, ht2]
    have hdel : pipelinerDelOpt pAtt pInit p = some a := by
      simp [pipelinerDelOpt, hf1, ht2]
      exact hpa
    constructor
    · rw [ups_filter_pipeliner mid members guests pipeliners mAtt mInit gAtt gInit
        pAtt pInit hp p hpp, hup]
      rfl
    · have haC : a ∈ pipeliners.filterMap (gDiffInitAttId pInit) :=
        List.mem_filterMap.mpr ⟨p, hpp, hpa⟩
      have h1 : (pipeliners.filterMap (pipelinerDelOpt pAtt pInit)).count a = 1 :=
        count_one_of_delOpt pipeliners _ _ pdel_sub hCn p hpp a hdel
      have h0A : (members.filterMap (memberDelOpt mAtt mInit)).count a = 0 :=
        List.count_eq_zero.mpr (notMem_filterMap_of_pointwise members _ _ mdel_sub a
          (fun ha => hdAB_C (List.mem_append_left _ ha) haC))
      have h0B : (guests.filterMap (guestDelOpt gAtt gInit)).count a = 0 :=
        List.count_eq_zero.mpr (notMem_filterMap_of_pointwise guests _ _ gdel_sub a
          (fun hb => hdAB_C (List.mem_append_right _ hb) haC))
      rw [List.count_append, List.count_append, h1, h0A, h0B]

/-- Concrete member attendance map for the C3 witness. -/
def c3Watt : MMap :=
  [(0, ⟨some 1, some AStatus.present⟩), (1, ⟨none, some AStatus.present⟩),
   (2, ⟨some 5, none⟩)]

/-- Concrete member baseline map for the C3 witness. -/
def c3Winit : MMap :=
  [(0, ⟨some 1, some AStatus.present⟩), (1, ⟨none, none⟩),
   (2, ⟨some 5, some AStatus.apology⟩)]

/-- Concrete guest attendance map for the C3 witness. -/
def c3WgAtt : GMap := [(10, ⟨none, true⟩)]

/-- Concrete guest baseline map for the C3 witness. -/
def c3WgInit : GMap := [(10, ⟨none, false⟩)]

/-- Concrete pipeliner attendance map for the C3 witness. -/
def c3WpAtt : GMap := [(20, ⟨some 6, false⟩)]

/-- Concrete pipeliner baseline map for the C3 witness. -/
def c3WpInit : GMap := [(20, ⟨some 6, true⟩)]

/-- The upserts the diff emits on the C3 witness ledger. -/
def c3Wups : List UpsertIn :=
  [⟨none, 9, some 1, none, none, AStatus.present⟩,
   ⟨none, 9, none, some 10, none, AStatus.present⟩]

/-- The deletions the diff emits on the C3 witness ledger. -/
def c3Wdels : List Nat := [5, 6]

/-- Witness for C3: a ledger with a clean member, a member newly marked
present, a member reverted to unset over a persisted row, a newly attended
guest and a newly unattended pipeliner with a persisted row. -/
theorem c3_witness :
    ([0, 1, 2] : List Nat).Nodup ∧
    ((∀ m ∈ ([0, 1, 2] : List Nat),
      (diffCurStatus c3Watt m = diffCurStatus c3Winit m →
        c3Wups.filter (fun u => u.member_id == some m) = [] ∧
        ∀ a, diffInitAttId c3Winit m = some a → a ∉ c3Wdels) ∧
      (∀ s, diffCurStatus c3Watt m = some s →
        ¬diffCurStatus c3Watt m = diffCurStatus c3Winit m →
        c3Wups.filter (fun u => u.member_id == some m) =
          [⟨diffAttId c3Watt c3Winit m, 9, some m, none, none, s⟩] ∧
        ∀ a, diffInitAttId c3Winit m = some a → a ∉ c3Wdels) ∧
      (∀ a, diffCurStatus c3Watt m = none →
        ¬diffCurStatus c3Watt m = diffCurStatus c3Winit m →
        diffInitAttId c3Winit m = some a →
        c3Wups.filter (fun u => u.member_id == some m) = [] ∧ c3Wdels.count a = 1)) ∧
    (∀ g ∈ ([10] : List Nat),
      (gCurAttended c3WgAtt g = gCurAttended c3WgInit g →
        c3Wups.filter (fun u => u.guest_id == some g) = [] ∧
        ∀ a, gDiffInitAttId c3WgInit g = some a → a ∉ c3Wdels) ∧
      (gCurAttended c3WgAtt g = true → gCurAttended c3WgInit g = false →
        c3Wups.filter (fun u => u.guest_id == some g) =
          [⟨gDiffAttId c3WgAtt c3WgInit g, 9, none, some g, none, AStatus.present⟩] ∧
        ∀ a, gDiffInitAttId c3WgInit g = some a → a ∉ c3Wdels) ∧
      (∀ a, gCurAttended c3WgAtt g = false → gCurAttended c3WgInit g = true →
        gDiffInitAttId c3WgInit g = some a →
        c3Wups.filter (fun u => u.guest_id == some g) = [] ∧ c3Wdels.count a = 1)) ∧
    (∀ p ∈ ([20] : List Nat),
      (gCurAttended c3WpAtt p = gCurAttended c3WpInit p →
        c3Wups.filter (fun u => u.pipeliner_id == some p) = [] ∧
        ∀ a, gDiffInitAttId c3WpInit p = some a → a ∉ c3Wdels) ∧
      (gCurAttended c3WpAtt p = true → gCurAttended c3WpInit p = false →
        c3Wups.filter (fun u => u.pipeliner_id == some p) =
          [⟨gDiffAttId c3WpAtt c3WpInit p, 9, none, none, some p, AStatus.present⟩] ∧
        ∀ a, gDiffInitAttId c3WpInit p = some a → a ∉ c3Wdels) ∧
      (∀ a, gCurAttended c3WpAtt p = false → gCurAttended c3WpInit p = true →
        gDiffInitAttId c3WpInit p = some a →
        c3Wups.filter (fun u => u.pipeliner_id == some p) = [] ∧ c3Wdels.count a = 1))) :=
  ⟨by decide,
   c3_diff_minimal_and_complete 9 [0, 1, 2] [10] [20] c3Watt c3Winit c3WgAtt
     c3WgInit c3WpAtt c3WpInit c3Wups c3Wdels (by decide) (by decide)
     (by decide) (by decide) (by decide)⟩

end Attendance
